import Mathlib

/-!
Verification development for the fixarr media-organizer pipeline.

Strings are modelled as `List Char`; Python string/regex processing is
embedded as executable functions on character lists.  Character casing and
the regex classes `\w`, `\s`, `\d`, `\b` are modelled at the ASCII level
(the repository's filenames, pattern tables and tests are ASCII).
Python floats are modelled as rationals.
-/

namespace Fixarr

/-- ASCII model of Python `str.lower` on a character. -/
def asciiLower (c : Char) : Char :=
  if 'A' ≤ c ∧ c ≤ 'Z' then Char.ofNat (c.toNat + 32) else c

/-- ASCII model of Python `str.upper` on a character. -/
def asciiUpper (c : Char) : Char :=
  if 'a' ≤ c ∧ c ≤ 'z' then Char.ofNat (c.toNat - 32) else c

/-- Regex `\w` (ASCII): letters, digits, underscore. -/
def isWordChar (c : Char) : Bool :=
  c.isAlphanum || c = '_'

/-- Regex `\s` (ASCII): space, tab, newline, CR, vertical tab, form feed. -/
def isSpaceChar (c : Char) : Bool :=
  c = ' ' || c = '\t' || c = '\n' || c = '\r' || c.toNat = 11 || c.toNat = 12

/-- The apostrophe character (kept by the cleaner's `[^\w\s\']` pass). -/
def apos : Char := Char.ofNat 39

/-- Numeric value of a digit string (as Python `int` on an all-digit string). -/
def charsToNat (l : List Char) : Nat :=
  l.foldl (fun acc c => acc * 10 + (c.toNat - 48)) 0

/-- The decimal digit character for `k < 10`. -/
def digitChar (k : Nat) : Char := Char.ofNat (48 + k)

/-- The four decimal digit characters of a year (1000 ≤ y ≤ 9999). -/
def yearChars (y : Nat) : List Char :=
  [digitChar (y / 1000 % 10), digitChar (y / 100 % 10),
   digitChar (y / 10 % 10), digitChar (y % 10)]

/-- Lowercase a whole character list (Python `str.lower`, ASCII model). -/
def lowerChars (l : List Char) : List Char := l.map asciiLower

/-! ### os.path helpers (`os.path.splitext`, `basename`, `dirname`) -/

/-- Split a list at the last occurrence of `c`: returns (before, after),
both without the occurrence itself, or `none` when `c` does not occur. -/
def breakLast (c : Char) : List Char → Option (List Char × List Char)
  | [] => none
  | x :: xs =>
    match breakLast c xs with
    | some (p, q) => some (x :: p, q)
    | none => if x = c then some ([], xs) else none

/-- `os.path.basename` (POSIX): the segment after the last slash. -/
def basenameChars (s : List Char) : List Char :=
  match breakLast '/' s with
  | some (_, b) => b
  | none => s

/-- `os.path.dirname` (POSIX): everything before the last slash. -/
def dirnameChars (s : List Char) : List Char :=
  match breakLast '/' s with
  | some (d, _) => d
  | none => []

/-- `os.path.splitext`: split off the extension at the last dot of the
basename, unless every character before that dot (within the basename)
is itself a dot (so `.bashrc` has no extension). -/
def splitextChars (s : List Char) : List Char × List Char :=
  let dirBase : List Char × List Char :=
    match breakLast '/' s with
    | some (d, b) => (d ++ ['/'], b)
    | none => ([], s)
  match breakLast '.' dirBase.2 with
  | none => (s, [])
  | some (pre, post) =>
    if pre.any (fun c => ¬ c = '.') then (dirBase.1 ++ pre, '.' :: post)
    else (s, [])

/-! ### name_cleaner: year extraction (`_extract_year`) -/

/-- First match of `\((\d{4})\)`: scan left to right for `(` followed by
exactly four digits and `)`; return the digits. -/
def findParenYear : List Char → Option (List Char)
  | [] => none
  | x :: xs =>
    if x = '(' then
      match xs with
      | a :: b :: c :: d :: e :: _ =>
        if a.isDigit ∧ b.isDigit ∧ c.isDigit ∧ d.isDigit ∧ e = ')' then
          some [a, b, c, d]
        else findParenYear xs
      | _ => findParenYear xs
    else findParenYear xs

/-- Do the four characters form `19\d{2}` or `20\d{2}`? -/
def isBareYearShape (a b c d : Char) : Bool :=
  ((a = '1' ∧ b = '9') ∨ (a = '2' ∧ b = '0')) ∧ c.isDigit ∧ d.isDigit

/-- Is the head of the list a non-word character (or the list empty)?
This is the `\b` test after a match that ends in a word character. -/
def boundaryAfterOk : List Char → Bool
  | [] => true
  | x :: _ => !isWordChar x

/-- `re.findall(r"\b(19\d{2}|20\d{2})\b", name)`: all non-overlapping
word-boundary-delimited year tokens, scanning left to right.  `prevW`
records whether the previous character was a word character. -/
def findBareYears (prevW : Bool) : List Char → List (List Char)
  | a :: b :: c :: d :: rest =>
    if ¬prevW ∧ isBareYearShape a b c d ∧ boundaryAfterOk rest then
      [a, b, c, d] :: findBareYears true rest
    else
      findBareYears (isWordChar a) (b :: c :: d :: rest)
  | _ => []

/-- The bare-token branch of `_extract_year`: the last plausible year. -/
def lastBareYear (s : List Char) : Option (List Char) :=
  (findBareYears false s).getLast?

/-- `_extract_year`: prefer the first parenthesized 4-digit group when it
lies in 1900–2099, otherwise fall back to the last bare year token. -/
def extractYearChars (s : List Char) : Option (List Char) :=
  match findParenYear s with
  | some y =>
    if 1900 ≤ charsToNat y ∧ charsToNat y ≤ 2099 then some y else lastBareYear s
  | none => lastBareYear s

/-! ### name_cleaner: the cleaning passes of `clean_media_filename` -/

/-- `re.sub(r"[\.\_\-]", " ", name)`: separators to spaces. -/
def sepToSpace (s : List Char) : List Char :=
  s.map fun c => if c = '.' ∨ c = '_' ∨ c = '-' then ' ' else c

/-- `re.sub(rf"\b{year_str}\b", " ", name)` for a 4-digit `year_str`:
replace each word-boundary-delimited occurrence by a single space. -/
def removeYearTokenAux (d : List Char) (prevW : Bool) : List Char → List Char
  | a :: b :: c :: e :: rest =>
    if ¬prevW ∧ [a, b, c, e] = d ∧ boundaryAfterOk rest then
      ' ' :: removeYearTokenAux d true rest
    else
      a :: removeYearTokenAux d (isWordChar a) (b :: c :: e :: rest)
  | s => s

def removeYearToken (d s : List Char) : List Char :=
  removeYearTokenAux d false s

/-- Drop everything up to and including the first occurrence of `c`,
returning the remainder, or `none` when `c` does not occur. -/
def dropThroughClose (c : Char) : List Char → Option (List Char)
  | [] => none
  | x :: xs => if x = c then some xs else dropThroughClose c xs

/-- Non-greedy delimiter removal, e.g. `re.sub(r"\(.*?\)", " ", name)`:
at an opening delimiter with a closing delimiter ahead, emit one space
and consume through the nearest closer (`skipping` state); an unmatched
opener is kept. -/
def removeDelimsAux (o c : Char) (skipping : Bool) : List Char → List Char
  | [] => []
  | x :: xs =>
    if skipping then
      if x = c then removeDelimsAux o c false xs
      else removeDelimsAux o c true xs
    else
      if x = o ∧ xs.contains c then ' ' :: removeDelimsAux o c true xs
      else x :: removeDelimsAux o c false xs

def removeDelims (o c : Char) (s : List Char) : List Char :=
  removeDelimsAux o c false s

/-! ### name_cleaner: keyword-pattern removal

Each pattern class in the source is `(?i)\b(alt1|alt2|...)\b` applied with
`re.sub(..., " ", name)`.  An alternative is a sequence of atoms: a literal
character (case-insensitive), an optional character (`\.?`, `s?`), or
`\s*`.  Matching is greedy with backtracking, alternatives are tried in
order, and the trailing `\b` (every alternative ends in a word character)
is checked at the end of the alternative. -/

inductive PatAtom
  | lit (c : Char)
  | optChar (c : Char)
  | wsStar
deriving DecidableEq

/-- Greedy `\s*` with backtracking: try dropping the longest run of
whitespace first, then successively less, before the continuation. -/
def tryDropSpaces (f : List Char → Option (List Char)) :
    List Char → Option (List Char)
  | [] => f []
  | x :: xs =>
    if isSpaceChar x then
      match tryDropSpaces f xs with
      | some r => some r
      | none => f (x :: xs)
    else f (x :: xs)

/-- Match one alternative against the front of `s`; on success return the
remainder after the match (the final `\b` is checked in the base case).
Optional atoms are greedy with backtracking. -/
def matchAlt : List PatAtom → List Char → Option (List Char)
  | [], s => if boundaryAfterOk s then some s else none
  | .lit c :: as, s =>
    match s with
    | [] => none
    | x :: xs => if asciiLower x = c then matchAlt as xs else none
  | .optChar c :: as, s =>
    match s with
    | [] => matchAlt as []
    | x :: xs =>
      if asciiLower x = c then
        match matchAlt as xs with
        | some r => some r
        | none => matchAlt as (x :: xs)
      else matchAlt as (x :: xs)
  | .wsStar :: as, s => tryDropSpaces (matchAlt as) s

/-- Try the alternatives in order; first success wins. -/
def firstAltMatch : List (List PatAtom) → List Char → Option (List Char)
  | [], _ => none
  | a :: rest, s =>
    match matchAlt a s with
    | some r => some r
    | none => firstAltMatch rest s

/-- `re.sub` scan for one `(?i)\b(...)\b` pattern: at each position with a
word boundary before it, try the alternatives; a match is replaced by one
space and the rest of the matched characters are consumed through the
`skip` counter (every alternative starts and ends with a word character,
so the boundary state after a match is `true`). -/
def subPatternAux (alts : List (List PatAtom)) (prevW : Bool) (skip : Nat) :
    List Char → List Char
  | [] => []
  | x :: xs =>
    match skip with
    | Nat.succ k => subPatternAux alts prevW k xs
    | 0 =>
      if prevW then x :: subPatternAux alts (isWordChar x) 0 xs
      else
        match firstAltMatch alts (x :: xs) with
        | some rest =>
          ' ' :: subPatternAux alts true ((x :: xs).length - rest.length - 1) xs
        | none => x :: subPatternAux alts (isWordChar x) 0 xs

def subPattern (alts : List (List PatAtom)) (s : List Char) : List Char :=
  subPatternAux alts false 0 s

/-- Literal word as a pattern alternative. -/
def lits (w : String) : List PatAtom := w.data.map .lit

/-- `[A-Z0-9]` (the release-group name pattern's character class,
case-sensitive). -/
def isGroupChar (c : Char) : Bool :=
  ('A' ≤ c ∧ c ≤ 'Z') || c.isDigit

/-- Try `\b[A-Z0-9]{2,}\-[A-Z0-9]{2,}\b` at the front of `s` (boundary
before already checked by the caller). -/
def tryGroupTag (s : List Char) : Option (List Char) :=
  let run1 := s.takeWhile isGroupChar
  let rest1 := s.drop run1.length
  if 2 ≤ run1.length then
    match rest1 with
    | '-' :: t =>
      let run2 := t.takeWhile isGroupChar
      let rest2 := t.drop run2.length
      if 2 ≤ run2.length ∧ boundaryAfterOk rest2 then some rest2 else none
    | _ => none
  else none

/-- `re.sub(r"\b[A-Z0-9]{2,}\-[A-Z0-9]{2,}\b", " ", name)`. -/
def removeGroupTagAux (prevW : Bool) (skip : Nat) : List Char → List Char
  | [] => []
  | x :: xs =>
    match skip with
    | Nat.succ k => removeGroupTagAux prevW k xs
    | 0 =>
      if prevW then x :: removeGroupTagAux (isWordChar x) 0 xs
      else
        match tryGroupTag (x :: xs) with
        | some rest =>
          ' ' :: removeGroupTagAux true ((x :: xs).length - rest.length - 1) xs
        | none => x :: removeGroupTagAux (isWordChar x) 0 xs

def removeGroupTag (s : List Char) : List Char := removeGroupTagAux false 0 s

/-! The pattern tables, in source order. -/

def RESOLUTION_ALTS : List (List PatAtom) :=
  [lits "2160p", lits "4k", lits "uhd", lits "fullhd", lits "hd",
   lits "1080p", lits "720p", lits "480p", lits "1080i", lits "720i"]

def CODEC_ALTS_1 : List (List PatAtom) :=
  [lits "x264", lits "x265",
   lits "h" ++ [.optChar '.'] ++ lits "264",
   lits "h" ++ [.optChar '.'] ++ lits "265",
   lits "hevc", lits "avc", lits "xvid", lits "divx", lits "av1", lits "vp9"]

def CODEC_ALTS_2 : List (List PatAtom) := [lits "10bit", lits "8bit"]

def CODEC_ALTS_3 : List (List PatAtom) :=
  [lits "hdr", lits "hdr10", lits "hdr10plus",
   lits "dolby" ++ [.wsStar] ++ lits "vision", lits "dv", lits "hlg"]

def AUDIO_ALTS_1 : List (List PatAtom) :=
  [lits "aac", lits "ac3", lits "dts", lits "dts-hd", lits "truehd",
   lits "atmos", lits "flac", lits "mp3", lits "eac3", lits "pcm",
   lits "vorbis", lits "opus"]

def AUDIO_ALTS_2 : List (List PatAtom) :=
  [lits "dd5" ++ [.optChar '.'] ++ lits "1",
   lits "5.1", lits "7.1", lits "2.0", lits "stereo", lits "mono",
   lits "dual" ++ [.optChar '.'] ++ lits "audio"]

def SOURCE_ALTS_1 : List (List PatAtom) :=
  [lits "bluray", lits "blu-ray", lits "bdrip", lits "brrip", lits "hdrip",
   lits "webrip", lits "web-dl", lits "webdl", lits "hdtv", lits "dvdrip",
   lits "dvdscr", lits "hdcam", lits "cam", lits "telecine", lits "telesync",
   lits "ts", lits "tc", lits "tvrip", lits "satrip"]

def SOURCE_ALTS_2 : List (List PatAtom) :=
  [lits "remux", lits "proper", lits "repack", lits "extended",
   lits "unrated", lits "theatrical",
   lits "directors" ++ [.optChar '.'] ++ lits "cut",
   lits "imax", lits "restored", lits "remastered", lits "edition",
   lits "special", lits "anniversary"]

def LANGUAGE_ALTS_1 : List (List PatAtom) :=
  [lits "english", lits "spanish", lits "french", lits "german",
   lits "italian", lits "portuguese", lits "russian", lits "japanese",
   lits "korean", lits "chinese", lits "hindi", lits "multi", lits "dual"]

def LANGUAGE_ALTS_2 : List (List PatAtom) :=
  [lits "latino", lits "castellano", lits "lat", lits "esp", lits "eng",
   lits "fra", lits "ger", lits "ita", lits "por", lits "rus", lits "jap",
   lits "kor", lits "chi", lits "hin"]

def SUBTITLE_ALTS : List (List PatAtom) :=
  [lits "subtitulado", lits "subtitulada",
   lits "sub" ++ [.optChar 's'],
   lits "hardsub" ++ [.optChar 's'],
   lits "softsub" ++ [.optChar 's']]

def MISC_ALTS_1 : List (List PatAtom) :=
  [lits "completa", lits "complete", lits "full", lits "season",
   lits "temporada", lits "temp",
   lits "episode" ++ [.optChar 's'],
   lits "capitulo" ++ [.optChar 's']]

def MISC_ALTS_2 : List (List PatAtom) :=
  [lits "internal", lits "limited", lits "rerip", lits "retail",
   lits "hc", lits "korsub"]

def RELEASE_GROUP_ALTS : List (List PatAtom) :=
  [lits "yify", lits "yts", lits "rarbg", lits "ettv", lits "psa",
   lits "qxr", lits "hazel", lits "ion10", lits "amiable", lits "spark",
   lits "dgt", lits "vxt"]

/-- The `for pattern in patterns: name = re.sub(pattern, " ", name)` loop:
RESOLUTION + CODEC + AUDIO + SOURCE + LANGUAGE + SUBTITLE + MISC +
RELEASE_GROUP, in source order. -/
def applyPatterns (s : List Char) : List Char :=
  let s := subPattern RESOLUTION_ALTS s
  let s := subPattern CODEC_ALTS_1 s
  let s := subPattern CODEC_ALTS_2 s
  let s := subPattern CODEC_ALTS_3 s
  let s := subPattern AUDIO_ALTS_1 s
  let s := subPattern AUDIO_ALTS_2 s
  let s := subPattern SOURCE_ALTS_1 s
  let s := subPattern SOURCE_ALTS_2 s
  let s := subPattern LANGUAGE_ALTS_1 s
  let s := subPattern LANGUAGE_ALTS_2 s
  let s := subPattern SUBTITLE_ALTS s
  let s := subPattern MISC_ALTS_1 s
  let s := subPattern MISC_ALTS_2 s
  let s := removeDelims '[' ']' s
  let s := removeDelims '(' ')' s
  let s := removeDelims (Char.ofNat 123) (Char.ofNat 125) s
  let s := removeGroupTag s
  subPattern RELEASE_GROUP_ALTS s

/-- `re.sub(r"[^\w\s\']", " ", name)`. -/
def punctToSpace (s : List Char) : List Char :=
  s.map fun c => if isWordChar c ∨ isSpaceChar c ∨ c = apos then c else ' '

/-- Python `str.split()` (split on whitespace runs, dropping empties). -/
def wordsAux (cur : List Char) : List Char → List (List Char)
  | [] => if cur.isEmpty then [] else [cur.reverse]
  | x :: xs =>
    if isSpaceChar x then
      if cur.isEmpty then wordsAux [] xs else cur.reverse :: wordsAux [] xs
    else wordsAux (x :: cur) xs

def wordsOf (s : List Char) : List (List Char) := wordsAux [] s

/-- `" ".join(ws)`. -/
def joinSpace : List (List Char) → List Char
  | [] => []
  | [w] => w
  | w :: rest => w ++ ' ' :: joinSpace rest

/-- `" ".join(name.split())`. -/
def collapseSpaces (s : List Char) : List Char := joinSpace (wordsOf s)

/-- Python `str.strip()`. -/
def stripChars (s : List Char) : List Char :=
  ((s.dropWhile isSpaceChar).reverse.dropWhile isSpaceChar).reverse

/-- Python `str.capitalize` (ASCII model). -/
def capWord : List Char → List Char
  | [] => []
  | c :: cs => asciiUpper c :: cs.map asciiLower

/-- The minor words that `_smart_title_case` leaves lowercase. -/
def lowercaseWords : List (List Char) :=
  [['a'], ['a', 'n'], ['t', 'h', 'e'], ['a', 'n', 'd'], ['b', 'u', 't'],
   ['o', 'r'], ['f', 'o', 'r'], ['n', 'o', 'r'], ['o', 'n'], ['a', 't'],
   ['t', 'o'], ['b', 'y'], ['i', 'n'], ['o', 'f']]

def smartWords (isFirst : Bool) : List (List Char) → List (List Char)
  | [] => []
  | w :: ws =>
    (if isFirst ∨ ¬ w ∈ lowercaseWords then capWord w else w)
      :: smartWords false ws

/-- `_smart_title_case` from name_cleaner.py. -/
def smartTitleCase (s : List Char) : List Char :=
  joinSpace (smartWords true (wordsOf (lowerChars s)))

/-- The media extensions recognized by `clean_media_filename`. -/
def mediaExts : List (List Char) :=
  [".mkv".data, ".mp4".data, ".avi".data, ".m4v".data, ".mov".data,
   ".wmv".data, ".flv".data, ".ts".data, ".srt".data, ".sub".data,
   ".ass".data, ".mp3".data, ".flac".data, ".m4a".data]

/-- `clean_media_filename` from name_cleaner.py, on character lists. -/
def cleanMediaChars (raw : List Char) : List Char × Option Nat :=
  let be := splitextChars raw
  let name0 := if lowerChars be.2 ∈ mediaExts then be.1 else raw
  let yearStr? := extractYearChars name0
  let year? := yearStr?.map charsToNat
  let n1 := sepToSpace name0
  let n2 := match yearStr? with
    | some y => removeYearToken y n1
    | none => n1
  let n3 := removeDelims '[' ']' n2
  let n4 := removeDelims (Char.ofNat 123) (Char.ofNat 125) n3
  let n5 := removeDelims '(' ')' n4
  let n6 := applyPatterns n5
  let n7 := punctToSpace n6
  let n8 := collapseSpaces n7
  (smartTitleCase (stripChars n8), year?)

/-- `clean_media_filename` on `String`. -/
def clean_media_filename (s : String) : String × Option Nat :=
  let r := cleanMediaChars s.data
  (String.mk r.1, r.2)

/-! ### models.py -/

/-- `MediaType` from models.py. -/
inductive MediaType
  | MOVIE
  | TV_SHOW
  | MUSIC
  | UNKNOWN
deriving DecidableEq

/-- `Decision` from models.py.  Note the member is `IGNORED`; there is no
member `IGNORE`. -/
inductive Decision
  | PENDING
  | AUTO_ACCEPTED
  | QUARANTINE
  | IGNORED
  | MANUAL_REVIEW
  | ERROR
deriving DecidableEq

/-- `ScoreBreakdown` from models.py (floats as rationals). -/
structure ScoreBreakdown where
  title_similarity : ℚ := 0
  year_match : ℚ := 0
  keyword_overlap : ℚ := 0
  overall : ℚ := 0
deriving DecidableEq

/-- `MetadataCandidate` from models.py.  `score` has a default-constructed
`ScoreBreakdown` (never `None` in the source), so it is a plain field. -/
structure MetadataCandidate where
  source : String
  id : String
  title : String
  year : Option Int := none
  overview : Option String := none
  score : ScoreBreakdown := {}
deriving DecidableEq

/-- The technical-metadata record used by the scorer's hint logic: the
`video_codec` and `hdr` entries of the probe's dict (`dict.get` defaults:
empty string, false). -/
structure FileMeta where
  video_codec : String := ""
  hdr : Bool := false
deriving DecidableEq

/-- One entry of a `MediaCandidate` subtitle list: the dict
`{"path": ..., "language": ...}` built by `find_matching_subtitles`. -/
structure SubEntry where
  path : String
  language : Option String := none
deriving DecidableEq

/-- `MediaCandidate` from models.py (the fields the verified operations
read or write; `file_metadata` is the hint record wrapped in `Option`,
`none` standing for a missing/empty dict). -/
structure MediaCandidate where
  original_path : String
  relative_path : String
  name : String
  media_type : MediaType := MediaType.UNKNOWN
  parsed_title : Option String := none
  parsed_year : Option Int := none
  file_metadata : Option FileMeta := none
  subtitles : List SubEntry := []
  candidates : List MetadataCandidate := []
  best_match : Option MetadataCandidate := none
  decision : Decision := Decision.PENDING
  decision_reason : Option String := none
  confidence_score : ℚ := 0
  destination_path : Option String := none
deriving DecidableEq

/-! ### scoring.py -/

/-- Python truthiness of an optional string (`None` and `""` are falsy). -/
def pyTruthy : Option String → Bool
  | none => false
  | some s => !s.isEmpty

/-- Python `int(...)` on a string: optional surrounding whitespace, one
optional sign, then at least one digit; otherwise `ValueError` (`none`). -/
def pyIntOfChars (s : List Char) : Option Int :=
  let t := stripChars s
  let core : Option (Bool × List Char) :=
    match t with
    | '-' :: rest => some (true, rest)
    | '+' :: rest => some (false, rest)
    | rest => some (false, rest)
  match core with
  | some (neg, ds) =>
    if ds ≠ [] ∧ ds.all Char.isDigit then
      some (if neg then -(charsToNat ds : Int) else (charsToNat ds : Int))
    else none
  | none => none

/-- Configuration of `ConfidenceScorer` (the fields used by
`score_match`; floats as rationals). -/
structure ScorerCfg where
  min_confidence : ℚ := 7/10
  auto_accept_threshold : ℚ := 17/20
  fuzzy_threshold : ℚ := 4/5
  year_tolerance : Int := 1
  w_title : ℚ := 1/2
  w_year : ℚ := 3/10
  w_keywords : ℚ := 1/5
deriving DecidableEq

/-- `ConfidenceScorer._score_title`.  The four rapidfuzz similarity
measures are an external collaborator; `ts` stands for the maximum of the
four ratios, applied to the lowercased, stripped strings. -/
def _score_title (ts : String → String → ℚ) (q r : String) : ℚ :=
  if q = "" ∨ r = "" then 0
  else ts (String.mk (stripChars (lowerChars q.data)))
          (String.mk (stripChars (lowerChars r.data)))

/-- `ConfidenceScorer._score_year`. -/
def _score_year (cfg : ScorerCfg) (qy ry : Option String) : ℚ :=
  if ¬ pyTruthy qy then 1/2
  else if ¬ pyTruthy ry then 3/10
  else
    match pyIntOfChars (qy.getD "").data,
          pyIntOfChars ((ry.getD "").data.take 4) with
    | some q, some r =>
      let diff : Int := |q - r|
      if diff = 0 then 1
      else if diff ≤ cfg.year_tolerance then 4/5
      else if diff ≤ 2 then 1/2
      else 1/5
    | _, _ => 3/10

/-- `ConfidenceScorer._score_keywords`. -/
def _score_keywords (qt : String) (kw : Option (List String)) : ℚ :=
  match kw with
  | none => 1/2
  | some ks =>
    if ks.isEmpty then 1/2
    else
      let kwWords := ks.flatMap fun k => wordsOf (lowerChars k.data)
      let overlap :=
        ((wordsOf (lowerChars qt.data)).dedup.filter (· ∈ kwWords)).length
      if 0 < overlap then min 1 (1/2 + (overlap : ℚ) * (1/5)) else 1/2

/-- `ConfidenceScorer._apply_metadata_hints` (for a present, non-empty
metadata dict `fm`): adjust the year score only when the query year is
falsy and the result year truthy; a `ValueError` in the year conversion
leaves the score unchanged. -/
def _apply_metadata_hints (base : ℚ) (qy ry : Option String)
    (fm : FileMeta) : ℚ :=
  if ¬ pyTruthy qy ∧ pyTruthy ry then
    match pyIntOfChars ((ry.getD "").data.take 4) with
    | none => base
    | some r =>
      let a1 :=
        if fm.video_codec = "h265" ∨ fm.video_codec = "av1" ∨
            fm.video_codec = "vp9" then
          if 2015 ≤ r then min 1 (base + 1/10) else base
        else if fm.video_codec = "xvid" ∨ fm.video_codec = "divx" then
          if r ≤ 2010 then min 1 (base + 1/10) else base
        else base
      if fm.hdr then
        if 2016 ≤ r then min 1 (a1 + 1/10) else a1
      else a1
  else base

/-- `ConfidenceScorer.score_match`.  `fm = none` models a missing or
empty (falsy) `file_metadata` dict. -/
def score_match (cfg : ScorerCfg) (ts : String → String → ℚ)
    (query_title : String) (query_year : Option String)
    (result_title : String) (result_year : Option String)
    (result_keywords : Option (List String))
    (file_metadata : Option FileMeta) : ScoreBreakdown :=
  let title_score := _score_title ts query_title result_title
  let year_score0 := _score_year cfg query_year result_year
  let keyword_score := _score_keywords query_title result_keywords
  let year_score :=
    match file_metadata with
    | some m => _apply_metadata_hints year_score0 query_year result_year m
    | none => year_score0
  { title_similarity := title_score
    year_match := year_score
    keyword_overlap := keyword_score
    overall := cfg.w_title * title_score + cfg.w_year * year_score
      + cfg.w_keywords * keyword_score }

/-! ### organizer.py: the decide stage -/

/-- A rational given directly by a reduced numerator/denominator pair
(kernel-reducible, unlike the quotient of the division operator). -/
def qlit (n : Int) (d : Nat) (h1 : d ≠ 0) (h2 : n.natAbs.Coprime d) : ℚ :=
  ⟨n, d, h1, h2⟩

/-- The thresholds `MediaOrganizer` reads from its config
(`auto_accept_threshold` default 0.85, `quarantine_threshold` 0.65). -/
structure OrganizerCfg where
  auto_accept : ℚ := qlit 17 20 (by decide) (by decide)
  quarantine_threshold : ℚ := qlit 13 20 (by decide) (by decide)
deriving DecidableEq

/-- Round `a / b` (with `b > 0`) half to even, as Python float
formatting does. -/
def roundHundredths (a b : Int) : Int :=
  let f := a.ediv b
  let r := a.emod b
  if 2 * r < b then f
  else if b < 2 * r then f + 1
  else if f.emod 2 = 0 then f else f + 1

/-- Render a nonnegative hundredths count as `d.dd`. -/
def fmt2Nat (n : Nat) : String :=
  toString (n / 100) ++ "." ++ (if n % 100 < 10 then "0" else "")
    ++ toString (n % 100)

/-- Python `f"{x:.2f}"` on a rational: round `x·100 = (100·num)/den`
half to even. -/
def fmt2 (x : ℚ) : String :=
  let n := roundHundredths (x.num * 100) (x.den : Int)
  if n < 0 then "-" ++ fmt2Nat (-n).toNat else fmt2Nat n.toNat

namespace MediaOrganizer

/-- The `confident_matches` list of `MediaOrganizer.decide`: candidates
whose own overall score clears the auto-accept threshold.  The Python
guard `c.score and ...` is always truthy (a dataclass `ScoreBreakdown`
instance), so only the threshold test remains. -/
def confident_matches (cfg : OrganizerCfg) (c : MediaCandidate) :
    List MetadataCandidate :=
  c.candidates.filter fun mc => cfg.auto_accept ≤ mc.score.overall

/-- `MediaOrganizer.decide`: the decide stage's transition rule. -/
def decide (cfg : OrganizerCfg) (c : MediaCandidate) : MediaCandidate :=
  if c.media_type = MediaType.MUSIC then
    { c with decision := Decision.AUTO_ACCEPTED }
  else if c.best_match = none then
    { c with decision := Decision.QUARANTINE
             decision_reason := some "No metadata match found" }
  else
    let score := c.confidence_score
    let confident := confident_matches cfg c
    if 1 < confident.length then
      { c with decision := Decision.QUARANTINE
               decision_reason := some ("Ambiguous match: "
                 ++ toString confident.length
                 ++ " candidates above auto-accept threshold") }
    else if cfg.auto_accept ≤ score then
      { c with decision := Decision.AUTO_ACCEPTED
               decision_reason := some ("Confidence " ++ fmt2 score
                 ++ " >= " ++ fmt2 cfg.auto_accept) }
    else if cfg.quarantine_threshold ≤ score then
      { c with decision := Decision.QUARANTINE
               decision_reason := some ("Confidence " ++ fmt2 score
                 ++ " below auto-accept but above quarantine threshold") }
    else
      { c with decision := Decision.QUARANTINE
               decision_reason := some ("Low confidence " ++ fmt2 score
                 ++ " < " ++ fmt2 cfg.quarantine_threshold) }

/-- `MediaOrganizer.apply`'s dispatch on the decision.  The first two
`elif` arms are reachable; evaluating the third arm's condition
`candidate.decision == Decision.IGNORE` raises `AttributeError` because
the enum member is named `IGNORED`, modelled as an error result. -/
def applyDispatch (d : Decision) : Except String String :=
  if d = Decision.AUTO_ACCEPTED then Except.ok "organized"
  else if d = Decision.QUARANTINE then Except.ok "quarantine"
  else Except.error "AttributeError: IGNORE is not a member of Decision"

/-- Does `applyDispatch` complete without raising? -/
def applyDispatchOk (d : Decision) : Bool :=
  match applyDispatch d with
  | Except.ok _ => true
  | Except.error _ => false

/-- `MediaOrganizer._move_file` over a flat filesystem model (a partial
map from paths to contents; `makedirs` has no observable effect in this
model).  In dry-run it only logs.  Otherwise: if the destination exists
the move is refused (`False`) and nothing changes; a missing source makes
`shutil.move` raise, caught and reported as `False`. -/
def _move_file {α : Type} (dryRun : Bool) (fs : String → Option α)
    (src dst : String) : Bool × (String → Option α) :=
  if dryRun then (true, fs)
  else if (fs dst).isSome then (false, fs)
  else
    match fs src with
    | none => (false, fs)
    | some v =>
      (true, fun p => if p = dst then some v else if p = src then none else fs p)

/-- The decide-and-apply loop of main.py restricted to its move effects:
one `_move_file` per item, collecting each item's success flag; a failed
move never stops the loop. -/
def runMoves {α : Type} (fs : String → Option α) :
    List (String × String) → (String → Option α) × List Bool
  | [] => (fs, [])
  | (s, d) :: rest =>
    let r := _move_file false fs s d
    let k := runMoves r.2 rest
    (k.1, r.1 :: k.2)

end MediaOrganizer

/-! ### metadata.py: the identify stage -/

/-- `get_spanish_to_english_hint` from name_cleaner.py. -/
def get_spanish_to_english_hint (t : String) : Option String :=
  (([("El Padrino", "The Godfather"),
     ("Pulp Fiction", "Pulp Fiction"),
     ("Cadena Perpetua", "The Shawshank Redemption"),
     ("La Lista de Schindler", "Schindler's List"),
     ("El Club de la Lucha", "Fight Club"),
     ("Origen", "Inception"),
     ("El Caballero Oscuro", "The Dark Knight")] :
    List (String × String)).find? (fun p => p.1 = t)).map Prod.snd

/-- The catalog query services consumed by `MetadataManager.identify`
(`_search_movies` / `_search_tv`): opaque external collaborators per the
spec. -/
structure SearchFns where
  searchMovies : String → Option Int → List MetadataCandidate
  searchTv : String → List MetadataCandidate

/-- The candidate identity used for deduplication. -/
def candKey (c : MetadataCandidate) : String × String := (c.source, c.id)

/-- The `seen_ids` / `unique_results` loop of `identify`. -/
def dedupByKeyAux (seen : List (String × String)) :
    List MetadataCandidate → List MetadataCandidate
  | [] => []
  | r :: rs =>
    if candKey r ∈ seen then dedupByKeyAux seen rs
    else r :: dedupByKeyAux (candKey r :: seen) rs

/-- The merged (pre-dedup) `results` list built by `identify`: primary
query plus the translated-hint query when the hint table fires. -/
def identifyResults (fns : SearchFns) (c : MediaCandidate) :
    List MetadataCandidate :=
  if c.media_type = MediaType.MUSIC then []
  else
    let searchTitle :=
      match c.parsed_title with
      | some t => if t = "" then c.name else t
      | none => c.name
    let hint := get_spanish_to_english_hint searchTitle
    if c.media_type = MediaType.MOVIE then
      fns.searchMovies searchTitle c.parsed_year
        ++ (match hint with
            | some h => fns.searchMovies h c.parsed_year
            | none => [])
    else if c.media_type = MediaType.TV_SHOW then
      fns.searchTv searchTitle
        ++ (match hint with
            | some h => fns.searchTv h
            | none => [])
    else []

/-- `MetadataManager.identify`: returns the deduplicated candidate list
and the updated item (music returns early without touching the item). -/
def identify (fns : SearchFns) (c : MediaCandidate) :
    List MetadataCandidate × MediaCandidate :=
  if c.media_type = MediaType.MUSIC then ([], c)
  else
    let u := dedupByKeyAux [] (identifyResults fns c)
    (u, { c with candidates := u })

/-! ### utils.py: file classification and subtitle matching -/

def VIDEO_EXTENSIONS : List (List Char) :=
  [".mkv".data, ".mp4".data, ".avi".data, ".mov".data, ".wmv".data,
   ".flv".data, ".webm".data, ".m4v".data, ".mpg".data, ".mpeg".data,
   ".ts".data, ".m2ts".data, ".vob".data]

def AUDIO_EXTENSIONS : List (List Char) :=
  [".mp3".data, ".flac".data, ".wav".data, ".m4a".data, ".ogg".data,
   ".wma".data, ".aac".data, ".opus".data, ".ape".data, ".alac".data]

def SUBTITLE_EXTENSIONS : List (List Char) :=
  [".srt".data, ".vtt".data, ".sub".data, ".ass".data, ".ssa".data,
   ".idx".data]

def is_video (filename : String) : Bool :=
  lowerChars (splitextChars filename.data).2 ∈ VIDEO_EXTENSIONS

def is_audio (filename : String) : Bool :=
  lowerChars (splitextChars filename.data).2 ∈ AUDIO_EXTENSIONS

def is_subtitle (filename : String) : Bool :=
  lowerChars (splitextChars filename.data).2 ∈ SUBTITLE_EXTENSIONS

/-- The `LANGUAGE_CODES` table from utils.py. -/
def LANGUAGE_CODES : List (String × String) :=
  [("en", "English"), ("eng", "English"), ("english", "English"),
   ("es", "Spanish"), ("spa", "Spanish"), ("spanish", "Spanish"),
   ("fr", "French"), ("fra", "French"), ("french", "French"),
   ("de", "German"), ("ger", "German"), ("deu", "German"),
   ("german", "German"),
   ("it", "Italian"), ("ita", "Italian"), ("italian", "Italian"),
   ("pt", "Portuguese"), ("por", "Portuguese"),
   ("portuguese", "Portuguese"),
   ("ru", "Russian"), ("rus", "Russian"), ("russian", "Russian"),
   ("ja", "Japanese"), ("jpn", "Japanese"), ("japanese", "Japanese"),
   ("ko", "Korean"), ("kor", "Korean"), ("korean", "Korean"),
   ("zh", "Chinese"), ("chi", "Chinese"), ("chinese", "Chinese"),
   ("ar", "Arabic"), ("ara", "Arabic"), ("arabic", "Arabic"),
   ("hi", "Hindi"), ("hin", "Hindi"), ("hindi", "Hindi"),
   ("nl", "Dutch"), ("dut", "Dutch"), ("dutch", "Dutch"),
   ("pl", "Polish"), ("pol", "Polish"), ("polish", "Polish"),
   ("sv", "Swedish"), ("swe", "Swedish"), ("swedish", "Swedish"),
   ("no", "Norwegian"), ("nor", "Norwegian"), ("norwegian", "Norwegian"),
   ("da", "Danish"), ("dan", "Danish"), ("danish", "Danish"),
   ("fi", "Finnish"), ("fin", "Finnish"), ("finnish", "Finnish"),
   ("tr", "Turkish"), ("tur", "Turkish"), ("turkish", "Turkish"),
   ("he", "Hebrew"), ("heb", "Hebrew"), ("hebrew", "Hebrew"),
   ("th", "Thai"), ("tha", "Thai"), ("thai", "Thai"),
   ("vi", "Vietnamese"), ("vie", "Vietnamese"),
   ("vietnamese", "Vietnamese")]

/-- Is a separator character of the class `[\._\-]`? -/
def isLangSep (c : Char) : Bool := c = '.' || c = '_' || c = '-'

/-- Leftmost match of `[\._\-]([a-z]+)$` (IGNORECASE) with the group
length constrained to `[lo, hi]`: a separator whose whole tail is
alphabetic and of acceptable length. -/
def findLangTail (lo hi : Nat) : List Char → Option (List Char)
  | [] => none
  | x :: xs =>
    if isLangSep x ∧ xs.all Char.isAlpha ∧ lo ≤ xs.length ∧ xs.length ≤ hi
    then some xs
    else findLangTail lo hi xs

/-- `detect_subtitle_language` from utils.py: try the 2-3-letter suffix
pattern, then the any-length suffix pattern; a matched code that is not
in the table falls through to the next pattern. -/
def detect_subtitle_language (filename : String) : Option String :=
  let base := (splitextChars filename.data).1
  let try1 :=
    match findLangTail 2 3 base with
    | some code =>
      (LANGUAGE_CODES.find? fun (p : String × String) =>
        p.1.data == lowerChars code).map Prod.snd
    | none => none
  match try1 with
  | some lang => some lang
  | none =>
    match findLangTail 1 base.length base with
    | some code =>
      (LANGUAGE_CODES.find? fun (p : String × String) =>
        p.1.data == lowerChars code).map Prod.snd
    | none => none

/-- Python `str.startswith` on character lists. -/
def startsWithL : List Char → List Char → Bool
  | [], _ => true
  | _ :: _, [] => false
  | p :: ps, s :: ss => p = s && startsWithL ps ss

/-- The filename stem of a path:
`os.path.splitext(os.path.basename(path))[0]`. -/
def stemOf (p : String) : List Char :=
  (splitextChars (basenameChars p.data)).1

/-- `find_matching_subtitles` from utils.py: every subtitle whose
basename starts with the video's filename stem is attached (the pool is
not consumed). -/
def find_matching_subtitles (video_path : String)
    (subtitle_files : List String) : List SubEntry :=
  let video_basename := stemOf video_path
  (subtitle_files.filter fun s =>
      startsWithL video_basename (basenameChars s.data)).map fun s =>
    { path := s
      language := detect_subtitle_language (String.mk (basenameChars s.data)) }

/-! ### name_cleaner.py: `extract_tv_info`

The three episode patterns `(?i)^(.*?)[\.\s\-_]*BLOCK` are embedded as:
scan for the least split point `k` such that, after greedily consuming
the separator run, the block matches (every block starts with a
non-separator character, so the greedy separator star is exact). -/

/-- The separator class `[\.\s\-_]`. -/
def isTvSep (c : Char) : Bool := c = '.' || isSpaceChar c || c = '-' || c = '_'

/-- Up to `n` leading digits (greedy). -/
def takeDigitsUpTo (n : Nat) (u : List Char) : List Char :=
  (u.takeWhile Char.isDigit).take n

/-- Case-insensitive literal match, returning the remainder. -/
def matchCI : List Char → List Char → Option (List Char)
  | [], u => some u
  | _ :: _, [] => none
  | w :: ws, x :: xs => if asciiLower x = w then matchCI ws xs else none

/-- After `[Ss]` and the season digits: `[Ee](\d{1,3})`. -/
def matchEafter (se : Nat) : List Char → Option (Nat × Nat)
  | e :: rest =>
    if asciiLower e = 'e' then
      let d := takeDigitsUpTo 3 rest
      if d.isEmpty then none else some (se, charsToNat d)
    else none
  | [] => none

/-- The `[Ss](\d{1,2})[Ee](\d{1,3})` block (season digits greedy with
backtracking against the `E`). -/
def matchSEBlock : List Char → Option (Nat × Nat)
  | x :: u =>
    if asciiLower x = 's' then
      match u with
      | a :: b :: rest =>
        if a.isDigit ∧ b.isDigit then
          match matchEafter (charsToNat [a, b]) rest with
          | some r => some r
          | none => matchEafter (charsToNat [a]) (b :: rest)
        else if a.isDigit then matchEafter (charsToNat [a]) (b :: rest)
        else none
      | _ => none
    else none
  | [] => none

/-- After the leading digits of the `NxNN` block: `[xX](\d{1,2})`. -/
def matchXafter (se : Nat) : List Char → Option (Nat × Nat)
  | x :: rest =>
    if asciiLower x = 'x' then
      let d := takeDigitsUpTo 2 rest
      if d.isEmpty then none else some (se, charsToNat d)
    else none
  | [] => none

/-- The `(\d{1,2})[xX](\d{1,2})` block. -/
def matchXBlock : List Char → Option (Nat × Nat)
  | a :: b :: rest =>
    if a.isDigit ∧ b.isDigit then
      match matchXafter (charsToNat [a, b]) rest with
      | some r => some r
      | none => matchXafter (charsToNat [a]) (b :: rest)
    else if a.isDigit then matchXafter (charsToNat [a]) (b :: rest)
    else none
  | _ => none

/-- After the season number in the word-form block:
`[\.\s\-_]*Episode[\.\s\-_]*(\d{1,3})`. -/
def matchEpisodeWord (se : Nat) (u : List Char) : Option (Nat × Nat) :=
  match matchCI "episode".data (u.dropWhile isTvSep) with
  | some u2 =>
    let d := takeDigitsUpTo 3 (u2.dropWhile isTvSep)
    if d.isEmpty then none else some (se, charsToNat d)
  | none => none

/-- The `Season[\.\s\-_]*(\d{1,2})[\.\s\-_]*Episode[\.\s\-_]*(\d{1,3})`
block. -/
def matchSeasonWordBlock (u : List Char) : Option (Nat × Nat) :=
  match matchCI "season".data u with
  | some u1 =>
    match u1.dropWhile isTvSep with
    | a :: b :: rest =>
      if a.isDigit ∧ b.isDigit then
        match matchEpisodeWord (charsToNat [a, b]) rest with
        | some r => some r
        | none => matchEpisodeWord (charsToNat [a]) (b :: rest)
      else if a.isDigit then matchEpisodeWord (charsToNat [a]) (b :: rest)
      else none
    | [a] => if a.isDigit then matchEpisodeWord (charsToNat [a]) [] else none
    | [] => none
  | none => none

/-- The lazy-prefix scan `^(.*?)[\.\s\-_]*BLOCK`: the least split point
whose suffix (after the separator run) matches the block; returns the
prefix (= group 1) and the block's numbers. -/
def tvScanAux (block : List Char → Option (Nat × Nat)) (acc : List Char) :
    List Char → Option (List Char × Nat × Nat)
  | [] =>
    match block [] with
    | some (a, b) => some (acc.reverse, a, b)
    | none => none
  | x :: xs =>
    match block ((x :: xs).dropWhile isTvSep) with
    | some (a, b) => some (acc.reverse, a, b)
    | none => tvScanAux block (x :: acc) xs

def tvScan (block : List Char → Option (Nat × Nat)) (s : List Char) :
    Option (List Char × Nat × Nat) :=
  tvScanAux block [] s

/-- `extract_tv_info` from name_cleaner.py. -/
def extract_tv_info (filename : String) :
    Option String × Option Nat × Option Nat :=
  let name := (splitextChars filename.data).1
  let finish : List Char × Nat × Nat → Option String × Option Nat × Option Nat :=
    fun r =>
      (if r.1.isEmpty then none
       else some (String.mk (cleanMediaChars r.1).1), some r.2.1, some r.2.2)
  match tvScan matchSEBlock name with
  | some r => finish r
  | none =>
    match tvScan matchXBlock name with
    | some r => finish r
    | none =>
      match tvScan matchSeasonWordBlock name with
      | some r => finish r
      | none => (none, none, none)

/-- `is_likely_tv_show` from name_cleaner.py. -/
def is_likely_tv_show (filename : String) : Bool :=
  let r := extract_tv_info filename
  r.2.1.isSome && r.2.2.isSome

/-! ### scanner.py: the group stage -/

def basenameStr (s : String) : String := String.mk (basenameChars s.data)

def dirnameStr (s : String) : String := String.mk (dirnameChars s.data)

/-- Model of `os.path.relpath(path, root)` for the case the scanner
meets (`path` inside `root`); other cases return the path unchanged. -/
def stripRoot (root p : String) : String :=
  if startsWithL (root.data ++ ['/']) p.data then
    String.mk (p.data.drop (root.data.length + 1))
  else p

/-- First-seen-order deduplication of a string list (Python dict-key
insertion order). -/
def firstSeenAux (seen : List String) : List String → List String
  | [] => []
  | x :: xs =>
    if x ∈ seen then firstSeenAux seen xs
    else x :: firstSeenAux (x :: seen) xs

def firstSeen (l : List String) : List String := firstSeenAux [] l

namespace MediaScanner

/-- `MediaScanner._process_music_group`. -/
def _process_music_group (src_path directory : String) : MediaCandidate :=
  { original_path := directory
    relative_path := stripRoot src_path directory
    name := basenameStr directory
    media_type := MediaType.MUSIC
    decision := Decision.PENDING }

/-- `MediaScanner._process_movie_file` (`probe` is the external
technical-metadata collaborator). -/
def _process_movie_file (probe : String → Option FileMeta)
    (src_path f : String) (all_subtitles : List String) : MediaCandidate :=
  let filename := basenameStr f
  let ty := cleanMediaChars filename.data
  { original_path := f
    relative_path := stripRoot src_path f
    name := filename
    media_type := MediaType.MOVIE
    parsed_title := some (String.mk ty.1)
    parsed_year := ty.2.map Int.ofNat
    file_metadata := probe f
    subtitles := find_matching_subtitles f all_subtitles
    decision := Decision.PENDING }

/-- `MediaScanner._get_folder_title`. -/
def _get_folder_title (directory : String) : String :=
  let folder := basenameStr directory
  let folder2 :=
    if (["season", "temporada", "temp", "s0", "s1", "s2"] :
        List String).any (fun w => startsWithL w.data (lowerChars folder.data))
    then basenameStr (dirnameStr directory)
    else folder
  String.mk (cleanMediaChars folder2.data).1

/-- `MediaScanner._process_tv_group`. -/
def _process_tv_group (probe : String → Option FileMeta)
    (src_path directory : String) (files all_subtitles : List String) :
    List MediaCandidate :=
  files.map fun f =>
    let filename := basenameStr f
    let r := extract_tv_info filename
    let title :=
      match r.1 with
      | some t =>
        if t = "" ∨ startsWithL "s0".data (lowerChars t.data) then
          _get_folder_title directory
        else t
      | none => _get_folder_title directory
    { original_path := f
      relative_path := stripRoot src_path f
      name := filename
      media_type := MediaType.TV_SHOW
      parsed_title := some title
      parsed_year := none
      file_metadata := probe f
      subtitles := find_matching_subtitles f all_subtitles
      decision := Decision.PENDING }

/-- `MediaScanner._group_stage`, taking the scan stage's classified file
lists: music-album directories absorb their videos and subtitles; the
remaining videos are grouped per directory as TV or movies; subtitle
matching draws on the shared (never-consumed) subtitle pool. -/
def _group_stage (probe : String → Option FileMeta) (src_path : String)
    (videos audios subs : List String) : List MediaCandidate :=
  let musicDirs := firstSeen (audios.map dirnameStr)
  let musicCands := musicDirs.map (_process_music_group src_path)
  let video_files := videos.filter fun f => ¬ dirnameStr f ∈ musicDirs
  let subtitles := subs.filter fun f => ¬ dirnameStr f ∈ musicDirs
  let videoDirs := firstSeen (video_files.map dirnameStr)
  let videoCands := videoDirs.flatMap fun d =>
    let files := video_files.filter fun f => dirnameStr f = d
    if files.any (fun f => is_likely_tv_show (basenameStr f)) then
      _process_tv_group probe src_path d files subtitles
    else
      files.map fun f => _process_movie_file probe src_path f subtitles
  musicCands ++ videoCands

end MediaScanner

/-! ### Specification-side definitions and concrete fixtures used by the
claim theorems and witnesses -/

/-- Specification of the hint adjustment: the number of corroborating
technical hints `_apply_metadata_hints` finds (codec hint and HDR hint),
for a falsy query year. -/
def hintCount (ry : Option String) (fm : FileMeta) : Nat :=
  if pyTruthy ry then
    match pyIntOfChars ((ry.getD "").data.take 4) with
    | none => 0
    | some r =>
      (if fm.video_codec = "h265" ∨ fm.video_codec = "av1" ∨
          fm.video_codec = "vp9" then
        if 2015 ≤ r then 1 else 0
       else if fm.video_codec = "xvid" ∨ fm.video_codec = "divx" then
        if r ≤ 2010 then 1 else 0
       else 0)
      + (if fm.hdr then if 2016 ≤ r then 1 else 0 else 0)
  else 0

/-- A stand-in fuzzy title scorer. -/
def tsEx : String → String → ℚ := fun _ _ => 1

/-- A technical-metadata record carrying both hint signals. -/
def fmEx : FileMeta := { video_codec := "h265", hdr := true }

/-- Characters of an already-clean movie title: letters, spaces and
apostrophes (no digits, separators, delimiters or slashes). -/
def isNiceChar (c : Char) : Bool :=
  c.isAlpha || c = ' ' || c = apos

/-- Characters that can appear in a parser output title: letters,
digits, spaces and apostrophes. -/
def isOutChar (c : Char) : Bool :=
  c.isAlphanum || c = ' ' || c = apos

/-- The two movie items of the shared-subtitle scenario, as the group
stage produces them. -/
def exItemA : MediaCandidate :=
  MediaScanner._process_movie_file (fun _ => none) "/d" "/d/Movie.mkv"
    ["/d/Movie 2.en.srt"]

def exItemB : MediaCandidate :=
  MediaScanner._process_movie_file (fun _ => none) "/d" "/d/Movie 2.mkv"
    ["/d/Movie 2.en.srt"]

/-- The organizer configuration with the default thresholds. -/
def defaultOrganizerCfg : OrganizerCfg := {}

/-- A metadata candidate with a given overall score. -/
def candWithScore (i : String) (v : ℚ) : MetadataCandidate :=
  { source := "tmdb", id := i, title := "X", score := { overall := v } }

/-- 0.90, 0.87 and 0.70 as literal rationals. -/
def q90 : ℚ := qlit 9 10 (by decide) (by decide)

def q87 : ℚ := qlit 87 100 (by decide) (by decide)

def q70 : ℚ := qlit 7 10 (by decide) (by decide)

/-- A movie item with exactly one candidate scoring 0.90. -/
def itemSingle90 : MediaCandidate :=
  { original_path := "/src/a.mkv", relative_path := "a.mkv", name := "a.mkv"
    media_type := MediaType.MOVIE
    candidates := [candWithScore "1" q90]
    best_match := some (candWithScore "1" q90)
    confidence_score := q90 }

/-- A movie item with two candidates scoring 0.90 and 0.87. -/
def itemPair9087 : MediaCandidate :=
  { original_path := "/src/b.mkv", relative_path := "b.mkv", name := "b.mkv"
    media_type := MediaType.MOVIE
    candidates := [candWithScore "1" q90, candWithScore "2" q87]
    best_match := some (candWithScore "1" q90)
    confidence_score := q90 }

/-- A movie item whose best score is 0.70. -/
def itemBest70 : MediaCandidate :=
  { original_path := "/src/c.mkv", relative_path := "c.mkv", name := "c.mkv"
    media_type := MediaType.MOVIE
    candidates := [candWithScore "1" q70]
    best_match := some (candWithScore "1" q70)
    confidence_score := q70 }

/-- A freshly scanned music item (decision reason unset). -/
def itemMusic : MediaCandidate :=
  { original_path := "/src/Album", relative_path := "Album", name := "Album"
    media_type := MediaType.MUSIC }

/-- The tmdb/603 candidate of the resolver-dedup scenario. -/
def cand603 : MetadataCandidate :=
  { source := "tmdb", id := "603", title := "The Matrix" }

/-- Search collaborators that return the tmdb/603 candidate for every
movie query (so both the original and the translated-hint query hit). -/
def exSearchFns : SearchFns :=
  { searchMovies := fun _ _ => [cand603]
    searchTv := fun _ => [] }

/-- A movie item whose parsed title fires the translation-hint table. -/
def itemHinted : MediaCandidate :=
  { original_path := "/src/cp.mkv", relative_path := "cp.mkv"
    name := "Cadena Perpetua.mkv", media_type := MediaType.MOVIE
    parsed_title := some "Cadena Perpetua" }

/-- A one-file filesystem: the destination path is already occupied. -/
def exFs : String → Option Nat :=
  fun p => if p = "/dst/Movies/X/x.mkv" then some 0 else none

/-- The group-stage fixture of the shared-subtitle scenario: two videos
in one directory, one subtitle whose name extends the shorter stem. -/
def exGroupItems : List MediaCandidate :=
  MediaScanner._group_stage (fun _ => none) "/d"
    ["/d/Movie.mkv", "/d/Movie 2.mkv"] [] ["/d/Movie 2.en.srt"]

end Fixarr

namespace Fixarr

/-! ## Claim theorems -/

/-- Claim C1: after scoring, `decide` quarantines items with no best
match (reason "No metadata match found"), quarantines ambiguous items
(two or more candidates at or above the auto-accept threshold) with an
ambiguous-match reason, auto-accepts at or above the auto-accept
threshold, quarantines with a below-auto-accept reason between the two
thresholds, and quarantines with a low-confidence reason below the
quarantine threshold.  In particular one candidate at 0.90 is
auto-accepted, candidates at 0.90 and 0.87 are quarantined as ambiguous,
and a best score of 0.70 gets the below-auto-accept reason, not the
low-confidence one. -/
theorem claimC1_decide_thresholds (cfg : OrganizerCfg) (c : MediaCandidate)
    (hm : ¬ c.media_type = MediaType.MUSIC) :
    (c.best_match = none →
      (MediaOrganizer.decide cfg c).decision = Decision.QUARANTINE ∧
      (MediaOrganizer.decide cfg c).decision_reason =
        some "No metadata match found") ∧
    (¬ c.best_match = none →
      1 < (MediaOrganizer.confident_matches cfg c).length →
      (MediaOrganizer.decide cfg c).decision = Decision.QUARANTINE ∧
      (MediaOrganizer.decide cfg c).decision_reason =
        some ("Ambiguous match: "
          ++ toString (MediaOrganizer.confident_matches cfg c).length
          ++ " candidates above auto-accept threshold")) ∧
    (¬ c.best_match = none →
      (MediaOrganizer.confident_matches cfg c).length ≤ 1 →
      cfg.auto_accept ≤ c.confidence_score →
      (MediaOrganizer.decide cfg c).decision = Decision.AUTO_ACCEPTED) ∧
    (¬ c.best_match = none →
      (MediaOrganizer.confident_matches cfg c).length ≤ 1 →
      c.confidence_score < cfg.auto_accept →
      cfg.quarantine_threshold ≤ c.confidence_score →
      (MediaOrganizer.decide cfg c).decision = Decision.QUARANTINE ∧
      (MediaOrganizer.decide cfg c).decision_reason =
        some ("Confidence " ++ fmt2 c.confidence_score
          ++ " below auto-accept but above quarantine threshold")) ∧
    (¬ c.best_match = none →
      (MediaOrganizer.confident_matches cfg c).length ≤ 1 →
      c.confidence_score < cfg.auto_accept →
      c.confidence_score < cfg.quarantine_threshold →
      (MediaOrganizer.decide cfg c).decision = Decision.QUARANTINE ∧
      (MediaOrganizer.decide cfg c).decision_reason =
        some ("Low confidence " ++ fmt2 c.confidence_score
          ++ " < " ++ fmt2 cfg.quarantine_threshold)) ∧
    (MediaOrganizer.decide defaultOrganizerCfg itemSingle90).decision
      = Decision.AUTO_ACCEPTED ∧
    (MediaOrganizer.decide defaultOrganizerCfg itemPair9087).decision
      = Decision.QUARANTINE ∧
    (MediaOrganizer.decide defaultOrganizerCfg itemPair9087).decision_reason
      = some "Ambiguous match: 2 candidates above auto-accept threshold" ∧
    (MediaOrganizer.decide defaultOrganizerCfg itemBest70).decision
      = Decision.QUARANTINE ∧
    (MediaOrganizer.decide defaultOrganizerCfg itemBest70).decision_reason
      = some "Confidence 0.70 below auto-accept but above quarantine threshold"
    := by
  refine ⟨?_, ?_, ?_, ?_, ?_, by decide, by decide, by decide, by decide,
    by decide⟩
  · intro hb
    simp [MediaOrganizer.decide, hm, hb]
  · intro hb hlen
    simp [MediaOrganizer.decide, hm, hb, hlen]
  · intro hb hlen hs
    have hlen' : ¬ 1 < (MediaOrganizer.confident_matches cfg c).length := by
      omega
    simp [MediaOrganizer.decide, hm, hb, hlen', hs]
  · intro hb hlen hs hq
    have hlen' : ¬ 1 < (MediaOrganizer.confident_matches cfg c).length := by
      omega
    have hs' : ¬ cfg.auto_accept ≤ c.confidence_score := not_le.mpr hs
    simp [MediaOrganizer.decide, hm, hb, hlen', hs', hq]
  · intro hb hlen hs hq
    have hlen' : ¬ 1 < (MediaOrganizer.confident_matches cfg c).length := by
      omega
    have hs' : ¬ cfg.auto_accept ≤ c.confidence_score := not_le.mpr hs
    have hq' : ¬ cfg.quarantine_threshold ≤ c.confidence_score :=
      not_le.mpr hq
    simp [MediaOrganizer.decide, hm, hb, hlen', hs', hq']

/-- Witness for C1 at the concrete 0.70 scenario and default thresholds. -/
theorem claimC1_witness :
    (MediaOrganizer.decide defaultOrganizerCfg itemBest70).decision
      = Decision.QUARANTINE ∧
    (MediaOrganizer.decide defaultOrganizerCfg itemBest70).decision_reason
      = some "Confidence 0.70 below auto-accept but above quarantine threshold"
    := by
  have H := claimC1_decide_thresholds defaultOrganizerCfg itemBest70
    (by decide)
  exact (H.2.2.2.1 (by decide) (by decide) (by decide) (by decide))

/-- Claim C2 (counterexample): a freshly scanned Music item transitions
to AutoAccepted in `decide`, but its decision reason stays `None` — the
Music fast-path never sets a reason string. -/
theorem claimC2_counterexample :
    (MediaOrganizer.decide defaultOrganizerCfg itemMusic).decision
      = Decision.AUTO_ACCEPTED ∧
    (MediaOrganizer.decide defaultOrganizerCfg itemMusic).decision_reason
      = none := by
  decide

/-- Claim C2 (amended): every `decide` transition on a non-Music item
sets a non-null reason string; the Music fast-path sets the disposition
only and leaves the reason as it was (null for freshly scanned items). -/
theorem claimC2_reason_set (cfg : OrganizerCfg) (c : MediaCandidate)
    (hm : ¬ c.media_type = MediaType.MUSIC) :
    ¬ (MediaOrganizer.decide cfg c).decision_reason = none := by
  by_cases hb : c.best_match = none
  · simp [MediaOrganizer.decide, hm, hb]
  · by_cases hlen : 1 < (MediaOrganizer.confident_matches cfg c).length
    · simp [MediaOrganizer.decide, hm, hb, hlen]
    · by_cases hs : cfg.auto_accept ≤ c.confidence_score
      · simp [MediaOrganizer.decide, hm, hb, hlen, hs]
      · by_cases hq : cfg.quarantine_threshold ≤ c.confidence_score
        · simp [MediaOrganizer.decide, hm, hb, hlen, hs, hq]
        · simp [MediaOrganizer.decide, hm, hb, hlen, hs, hq]

/-- Witness for the amended C2 at the 0.70 item. -/
theorem claimC2_witness :
    ¬ (MediaOrganizer.decide defaultOrganizerCfg itemBest70).decision_reason
      = none :=
  claimC2_reason_set defaultOrganizerCfg itemBest70 (by decide)

/-- Claim C10: `decide` only ever produces AutoAccepted or Quarantine,
so the apply stage's dispatch never evaluates its ignore arm — the arm
whose condition references the nonexistent enum member
`Decision.IGNORE` and would raise. -/
theorem claimC10_decide_never_reaches_ignore (cfg : OrganizerCfg)
    (c : MediaCandidate) :
    ((MediaOrganizer.decide cfg c).decision = Decision.AUTO_ACCEPTED ∨
      (MediaOrganizer.decide cfg c).decision = Decision.QUARANTINE) ∧
    MediaOrganizer.applyDispatchOk (MediaOrganizer.decide cfg c).decision
      = true := by
  have hd : (MediaOrganizer.decide cfg c).decision = Decision.AUTO_ACCEPTED ∨
      (MediaOrganizer.decide cfg c).decision = Decision.QUARANTINE := by
    by_cases hm : c.media_type = MediaType.MUSIC
    · simp [MediaOrganizer.decide, hm]
    · by_cases hb : c.best_match = none
      · simp [MediaOrganizer.decide, hm, hb]
      · by_cases hlen : 1 < (MediaOrganizer.confident_matches cfg c).length
        · simp [MediaOrganizer.decide, hm, hb, hlen]
        · by_cases hs : cfg.auto_accept ≤ c.confidence_score
          · simp [MediaOrganizer.decide, hm, hb, hlen, hs]
          · by_cases hq : cfg.quarantine_threshold ≤ c.confidence_score
            · simp [MediaOrganizer.decide, hm, hb, hlen, hs, hq]
            · simp [MediaOrganizer.decide, hm, hb, hlen, hs, hq]
  refine ⟨hd, ?_⟩
  rcases hd with h | h <;>
    simp [MediaOrganizer.applyDispatchOk, MediaOrganizer.applyDispatch, h]

/-- Claim C9: outside dry-run, a move whose destination already exists
returns failure and changes nothing (the destination file and the source
are untouched), and the decide-and-apply loop still processes every item
(one result per move, no abort). -/
theorem claimC9_no_overwrite {α : Type} (fs : String → Option α)
    (src dst : String) (v : α) (h : fs dst = some v) :
    (MediaOrganizer._move_file false fs src dst).1 = false ∧
    (∀ p, (MediaOrganizer._move_file false fs src dst).2 p = fs p) ∧
    (∀ (moves : List (String × String)) (fs0 : String → Option α),
      (MediaOrganizer.runMoves fs0 moves).2.length = moves.length) := by
  refine ⟨?_, ?_, ?_⟩
  · simp [MediaOrganizer._move_file, h]
  · intro p
    simp [MediaOrganizer._move_file, h]
  · intro moves
    induction moves with
    | nil => intro fs0; simp [MediaOrganizer.runMoves]
    | cons m rest ih =>
      intro fs0
      simp [MediaOrganizer.runMoves, ih]

/-- Witness for C9: a destination that already holds a file. -/
theorem claimC9_witness :
    (MediaOrganizer._move_file false exFs "/src/a.mkv"
      "/dst/Movies/X/x.mkv").1 = false ∧
    (MediaOrganizer._move_file false exFs "/src/a.mkv"
      "/dst/Movies/X/x.mkv").2 "/dst/Movies/X/x.mkv" = exFs "/dst/Movies/X/x.mkv" ∧
    (MediaOrganizer.runMoves exFs
      [("/src/a.mkv", "/dst/Movies/X/x.mkv")]).2.length = 1 := by
  have H := claimC9_no_overwrite exFs "/src/a.mkv" "/dst/Movies/X/x.mkv" 0
    (by decide)
  exact ⟨H.1, H.2.1 "/dst/Movies/X/x.mkv", H.2.2 _ _⟩

theorem apply_hints_truthy (base : ℚ) (qy ry : Option String) (m : FileMeta)
    (hq : pyTruthy qy = true) :
    _apply_metadata_hints base qy ry m = base := by
  simp [_apply_metadata_hints, hq]

/-- Claim C6: with a filename (query) year present, `score_match` is
independent of the technical file metadata — the hint adjustment has
zero effect; with the query year absent, the year score is exactly
0.5 plus 0.1 per corroborating hint (never decreased). -/
theorem claimC6_hints_zero_effect (cfg : ScorerCfg)
    (ts : String → String → ℚ) (qt rt : String)
    (qy qy2 ry ry2 : Option String) (kw : Option (List String))
    (fm fm' : Option FileMeta) (fm2 : FileMeta)
    (hq : pyTruthy qy = true) (hq2 : pyTruthy qy2 = false) :
    score_match cfg ts qt qy rt ry kw fm
      = score_match cfg ts qt qy rt ry kw fm' ∧
    (score_match cfg ts qt qy2 rt ry2 kw (some fm2)).year_match
      = 1/2 + (hintCount ry2 fm2 : ℚ) * (1/10) ∧
    (1 : ℚ)/2 ≤ (score_match cfg ts qt qy2 rt ry2 kw (some fm2)).year_match
    := by
  have hyb : _score_year cfg qy2 ry2 = 1/2 := by
    simp [_score_year, hq2]
  have key : (score_match cfg ts qt qy2 rt ry2 kw (some fm2)).year_match
      = 1/2 + (hintCount ry2 fm2 : ℚ) * (1/10) := by
    simp only [score_match, hyb]
    by_cases hry : pyTruthy ry2 = true
    · rcases hp : pyIntOfChars ((ry2.getD "").data.take 4) with _ | r
      · simp [_apply_metadata_hints, hintCount, hq2, hry, hp]
      · simp only [_apply_metadata_hints, hintCount, hq2, hry, hp]
        norm_num
        split_ifs <;> norm_num
    · have hry' : pyTruthy ry2 = false := by
        cases h : pyTruthy ry2
        · rfl
        · exact absurd h hry
      simp [_apply_metadata_hints, hintCount, hq2, hry']
  refine ⟨?_, key, ?_⟩
  · cases fm with
    | none =>
      cases fm' with
      | none => rfl
      | some m' => simp [score_match, apply_hints_truthy _ _ _ _ hq]
    | some m =>
      cases fm' with
      | none => simp [score_match, apply_hints_truthy _ _ _ _ hq]
      | some m' =>
        simp [score_match, apply_hints_truthy _ _ _ _ hq]
  · rw [key]
    have h0 : 0 ≤ (hintCount ry2 fm2 : ℚ) * (1/10) := by positivity
    linarith

/-- Witness for C6: query year "1999" present (hints ignored even with a
codec+HDR record), and query year absent with both hints firing. -/
theorem claimC6_witness :
    score_match {} tsEx "The Matrix" (some "1999") "The Matrix"
        (some "1999") none (some fmEx)
      = score_match {} tsEx "The Matrix" (some "1999") "The Matrix"
        (some "1999") none none ∧
    (score_match {} tsEx "The Matrix" none "The Matrix" (some "2020")
        none (some fmEx)).year_match
      = 1/2 + (hintCount (some "2020") fmEx : ℚ) * (1/10) ∧
    (1 : ℚ)/2 ≤ (score_match {} tsEx "The Matrix" none "The Matrix"
        (some "2020") none (some fmEx)).year_match := by
  have H := claimC6_hints_zero_effect {} tsEx "The Matrix" "The Matrix"
    (some "1999") none (some "1999") (some "2020") none (some fmEx) none
    fmEx (by decide) (by decide)
  exact H

theorem dedup_nodup_aux (l : List MetadataCandidate) :
    ∀ seen, (((dedupByKeyAux seen l).map candKey).Nodup) ∧
      (∀ k ∈ (dedupByKeyAux seen l).map candKey, ¬ k ∈ seen) := by
  induction l with
  | nil => intro seen; simp [dedupByKeyAux]
  | cons r rs ih =>
    intro seen
    by_cases hr : candKey r ∈ seen
    · rw [show dedupByKeyAux seen (r :: rs) = dedupByKeyAux seen rs by
        simp [dedupByKeyAux, hr]]
      exact ih seen
    · rw [show dedupByKeyAux seen (r :: rs)
          = r :: dedupByKeyAux (candKey r :: seen) rs by
        simp [dedupByKeyAux, hr]]
      have IH := ih (candKey r :: seen)
      constructor
      · simp only [List.map_cons, List.nodup_cons]
        exact ⟨fun hmem => (IH.2 _ hmem) (by simp), IH.1⟩
      · intro k hk
        simp only [List.map_cons, List.mem_cons] at hk
        rcases hk with hk | hk
        · exact hk ▸ hr
        · intro hks
          exact (IH.2 _ hk) (by simp [hks])

theorem dedup_sublist (l : List MetadataCandidate) :
    ∀ seen, List.Sublist (dedupByKeyAux seen l) l := by
  induction l with
  | nil => intro seen; simp [dedupByKeyAux]
  | cons r rs ih =>
    intro seen
    by_cases hr : candKey r ∈ seen
    · simpa [dedupByKeyAux, hr] using List.Sublist.cons r (ih seen)
    · simpa [dedupByKeyAux, hr] using List.Sublist.cons₂ r (ih _)

theorem dedup_mem_key (l : List MetadataCandidate) :
    ∀ seen k, k ∈ (dedupByKeyAux seen l).map candKey ↔
      (k ∈ l.map candKey ∧ ¬ k ∈ seen) := by
  induction l with
  | nil => intro seen k; simp [dedupByKeyAux]
  | cons r rs ih =>
    intro seen k
    by_cases hr : candKey r ∈ seen
    · rw [show dedupByKeyAux seen (r :: rs) = dedupByKeyAux seen rs by
        simp [dedupByKeyAux, hr]]
      rw [ih seen k]
      constructor
      · rintro ⟨hm, hs⟩
        exact ⟨by simp [hm], hs⟩
      · rintro ⟨hm, hs⟩
        simp only [List.map_cons, List.mem_cons] at hm
        rcases hm with hm | hm
        · exact absurd (hm ▸ hr) hs
        · exact ⟨hm, hs⟩
    · rw [show dedupByKeyAux seen (r :: rs)
          = r :: dedupByKeyAux (candKey r :: seen) rs by
        simp [dedupByKeyAux, hr]]
      simp only [List.map_cons, List.mem_cons]
      rw [ih (candKey r :: seen) k]
      constructor
      · rintro (hk | ⟨hm, hs⟩)
        · exact ⟨Or.inl hk, hk ▸ hr⟩
        · refine ⟨Or.inr hm, fun hks => hs (by simp [hks])⟩
      · rintro ⟨hm | hm, hs⟩
        · exact Or.inl hm
        · by_cases hkr : k = candKey r
          · exact Or.inl hkr
          · exact Or.inr ⟨hm, by simp [hkr, hs]⟩

theorem dedup_first_occurrence (l : List MetadataCandidate) :
    ∀ seen x, x ∈ dedupByKeyAux seen l →
      ¬ candKey x ∈ seen ∧
      l.find? (fun y => decide (candKey y = candKey x)) = some x := by
  induction l with
  | nil => intro seen x hx; simp [dedupByKeyAux] at hx
  | cons r rs ih =>
    intro seen x hx
    by_cases hr : candKey r ∈ seen
    · rw [show dedupByKeyAux seen (r :: rs) = dedupByKeyAux seen rs by
        simp [dedupByKeyAux, hr]] at hx
      obtain ⟨hxs, hfind⟩ := ih seen x hx
      have hne : ¬ candKey r = candKey x := fun h => hxs (h ▸ hr)
      refine ⟨hxs, ?_⟩
      rw [List.find?_cons_of_neg _ (by simpa using hne)]
      exact hfind
    · rw [show dedupByKeyAux seen (r :: rs)
          = r :: dedupByKeyAux (candKey r :: seen) rs by
        simp [dedupByKeyAux, hr]] at hx
      rcases List.mem_cons.mp hx with hx | hx
      · subst hx
        exact ⟨hr, by rw [List.find?_cons_of_pos _ (by simp)]⟩
      · obtain ⟨hxs, hfind⟩ := ih (candKey r :: seen) x hx
        have hne : ¬ candKey r = candKey x := fun h => hxs (by simp [h])
        refine ⟨fun hs => hxs (by simp [hs]), ?_⟩
        rw [List.find?_cons_of_neg _ (by simpa using hne)]
        exact hfind

/-- Claim C7: the identify stage's final candidate list holds at most one
candidate per (source, id) key — it is the first-seen-order
deduplication of the merged query results (a sublist covering exactly the
merged keys, each entry being the first merged occurrence of its key) —
and a tmdb/603 candidate returned by both the original-title query and
the translated-hint query appears exactly once. -/
theorem claimC7_identify_dedup (fns : SearchFns) (c : MediaCandidate) :
    (((identify fns c).1.map candKey).Nodup) ∧
    List.Sublist (identify fns c).1 (identifyResults fns c) ∧
    (∀ k, k ∈ (identify fns c).1.map candKey ↔
      k ∈ (identifyResults fns c).map candKey) ∧
    (∀ x, x ∈ (identify fns c).1 →
      (identifyResults fns c).find?
        (fun y => decide (candKey y = candKey x)) = some x) ∧
    (¬ c.media_type = MediaType.MUSIC →
      (identify fns c).2.candidates = (identify fns c).1) ∧
    ((identify exSearchFns itemHinted).1.countP
      (fun x => decide (candKey x = ("tmdb", "603"))) = 1) := by
  by_cases hm : c.media_type = MediaType.MUSIC
  · have h1 : (identify fns c).1 = [] := by simp [identify, hm]
    have h2 : identifyResults fns c = [] := by simp [identifyResults, hm]
    rw [h1, h2]
    refine ⟨by simp, by simp, by simp, by simp, fun h => absurd hm h,
      by decide⟩
  · have h1 : (identify fns c).1
        = dedupByKeyAux [] (identifyResults fns c) := by
      simp [identify, hm]
    refine ⟨?_, ?_, ?_, ?_, ?_, by decide⟩
    · rw [h1]; exact (dedup_nodup_aux _ []).1
    · rw [h1]; exact dedup_sublist _ []
    · intro k
      rw [h1, dedup_mem_key]
      simp
    · intro x hx
      rw [h1] at hx
      exact (dedup_first_occurrence _ [] x hx).2
    · intro _
      simp [identify, hm]

/-- Witness for C7 at the concrete two-query tmdb/603 scenario. -/
theorem claimC7_witness :
    (identifyResults exSearchFns itemHinted).find?
      (fun y => decide (candKey y = candKey cand603)) = some cand603 ∧
    (identify exSearchFns itemHinted).2.candidates
      = (identify exSearchFns itemHinted).1 := by
  have H := claimC7_identify_dedup exSearchFns itemHinted
  exact ⟨H.2.2.2.1 cand603 (by decide), H.2.2.2.2.1 (by decide)⟩

/-! Helper lemmas for the filename-parser claims. -/

theorem breakLast_none (ch : Char) (l : List Char)
    (h : ∀ c ∈ l, ¬ c = ch) : breakLast ch l = none := by
  induction l with
  | nil => rfl
  | cons x xs ih =>
    have hx : ¬ x = ch := h x (by simp)
    have hxs : breakLast ch xs = none := ih fun c hc => h c (by simp [hc])
    simp [breakLast, hxs, hx]

theorem breakLast_append_last (ch : Char) (s u : List Char)
    (hu : ∀ c ∈ u, ¬ c = ch) :
    breakLast ch (s ++ ch :: u) = some (s, u) := by
  induction s with
  | nil => simp [breakLast, breakLast_none ch u hu]
  | cons x xs ih => simp [breakLast, ih]

theorem splitext_append_ext (s : List Char) (hne : s ≠ [])
    (h : ∀ c ∈ s, ¬ c = '.' ∧ ¬ c = '/') :
    splitextChars (s ++ ".mkv".data) = (s, ".mkv".data) := by
  have hslash : breakLast '/' (s ++ ".mkv".data) = none := by
    apply breakLast_none
    intro c hc
    rcases List.mem_append.mp hc with hc | hc
    · exact (h c hc).2
    · simp only [show ".mkv".data = ['.', 'm', 'k', 'v'] from rfl,
        List.mem_cons, List.not_mem_nil, or_false] at hc
      rcases hc with rfl | rfl | rfl | rfl <;> decide
  have hdot : breakLast '.' (s ++ ".mkv".data)
      = some (s, ['m', 'k', 'v']) := by
    have heq : s ++ ".mkv".data = s ++ '.' :: ['m', 'k', 'v'] := rfl
    rw [heq]
    exact breakLast_append_last '.' s _ (by decide)
  have hex : ∃ x ∈ s, ¬ x = '.' := by
    rcases s with _ | ⟨x, xs⟩
    · exact absurd rfl hne
    · exact ⟨x, by simp, (h x (by simp)).1⟩
  simp [splitextChars, hslash, hdot, hex]

theorem breakLast_eq_append (ch : Char) :
    ∀ (s d b : List Char), breakLast ch s = some (d, b) →
      s = d ++ ch :: b := by
  intro s
  induction s with
  | nil => intro d b h; simp [breakLast] at h
  | cons x xs ih =>
    intro d b h
    simp only [breakLast] at h
    rcases hx : breakLast ch xs with _ | ⟨p, q⟩
    · rw [hx] at h
      by_cases hxc : x = ch
      · simp [hxc] at h
        rcases h with ⟨h1, h2⟩
        subst h1
        subst h2
        simp [hxc]
      · simp [hxc] at h
    · rw [hx] at h
      simp only [Option.some.injEq, Prod.mk.injEq] at h
      rw [← h.1, ← h.2]
      rw [show xs = p ++ ch :: q from ih p q hx]
      simp

theorem splitext_no_dot (s : List Char)
    (h : ∀ c ∈ s, ¬ c = '.') : splitextChars s = (s, []) := by
  unfold splitextChars
  rcases hsl : breakLast '/' s with _ | ⟨d, b⟩
  · have hdot : breakLast '.' s = none := breakLast_none '.' s h
    simp [hdot]
  · have hb : ∀ c ∈ b, ¬ c = '.' := by
      intro c hc
      exact h c (by rw [breakLast_eq_append '/' s d b hsl]; simp [hc])
    have hdot : breakLast '.' b = none := breakLast_none '.' b hb
    simp [hdot]

theorem digitChar_toNat (k : Nat) (hk : k < 10) :
    (digitChar k).toNat = 48 + k := by
  interval_cases k <;> decide

theorem digitChar_isDigit (k : Nat) (hk : k < 10) :
    (digitChar k).isDigit = true := by
  interval_cases k <;> decide

theorem digitChar_not_eq (k : Nat) (hk : k < 10) (c : Char)
    (hc : c.isDigit = false) : ¬ c = digitChar k := by
  intro h
  rw [h, digitChar_isDigit k hk] at hc
  cases hc

theorem yearChars_all_digits (y : Nat) :
    ∀ c ∈ yearChars y, c.isDigit = true := by
  intro c hc
  simp only [yearChars, List.mem_cons, List.not_mem_nil, or_false] at hc
  rcases hc with rfl | rfl | rfl | rfl <;>
    exact digitChar_isDigit _ (Nat.mod_lt _ (by omega))

theorem charsToNat_yearChars (y : Nat) (hy : y ≤ 9999) :
    charsToNat (yearChars y) = y := by
  simp only [yearChars, charsToNat, List.foldl]
  rw [digitChar_toNat _ (Nat.mod_lt _ (by omega)),
    digitChar_toNat _ (Nat.mod_lt _ (by omega)),
    digitChar_toNat _ (Nat.mod_lt _ (by omega)),
    digitChar_toNat _ (Nat.mod_lt _ (by omega))]
  omega

theorem yearChars_shape (y : Nat) (h1 : 1900 ≤ y) (h2 : y ≤ 2099) :
    isBareYearShape (digitChar (y / 1000 % 10)) (digitChar (y / 100 % 10))
      (digitChar (y / 10 % 10)) (digitChar (y % 10)) = true := by
  have hd3 : (digitChar (y / 10 % 10)).isDigit = true :=
    digitChar_isDigit _ (Nat.mod_lt _ (by omega))
  have hd4 : (digitChar (y % 10)).isDigit = true :=
    digitChar_isDigit _ (Nat.mod_lt _ (by omega))
  rcases (by omega :
      (y / 1000 % 10 = 1 ∧ y / 100 % 10 = 9) ∨
      (y / 1000 % 10 = 2 ∧ y / 100 % 10 = 0)) with ⟨ha, hb⟩ | ⟨ha, hb⟩ <;>
  · rw [ha, hb]
    simp [isBareYearShape, hd3, hd4]
    decide

theorem findParenYear_skip (x : Char) (xs : List Char) (hx : ¬ x = '(') :
    findParenYear (x :: xs) = findParenYear xs := by
  rcases xs with _ | ⟨a, _ | ⟨b, _ | ⟨c, _ | ⟨d, _ | ⟨e, rest⟩⟩⟩⟩⟩ <;>
    simp [findParenYear, hx]

theorem findParenYear_none (s : List Char) (h : ∀ c ∈ s, ¬ c = '(') :
    findParenYear s = none := by
  induction s with
  | nil => rfl
  | cons x xs ih =>
    rw [findParenYear_skip x xs (h x (by simp))]
    exact ih fun c hc => h c (by simp [hc])

theorem findParenYear_append (a : List Char) (d1 d2 d3 d4 : Char)
    (b : List Char) (ha : ∀ c ∈ a, ¬ c = '(')
    (hd : d1.isDigit = true ∧ d2.isDigit = true ∧ d3.isDigit = true ∧
      d4.isDigit = true) :
    findParenYear (a ++ '(' :: d1 :: d2 :: d3 :: d4 :: ')' :: b)
      = some [d1, d2, d3, d4] := by
  induction a with
  | nil =>
    simp [findParenYear, hd.1, hd.2.1, hd.2.2.1, hd.2.2.2]
  | cons x xs ih =>
    rw [List.cons_append,
      findParenYear_skip x _ (ha x (by simp))]
    exact ih fun c hc => ha c (by simp [hc])

theorem sepToSpace_noop (l : List Char)
    (h : ∀ c ∈ l, ¬ (c = '.' ∨ c = '_' ∨ c = '-')) : sepToSpace l = l := by
  unfold sepToSpace
  induction l with
  | nil => rfl
  | cons x xs ih =>
    simp only [List.map_cons]
    rw [if_neg (h x (by simp)), ih fun c hc => h c (by simp [hc])]

theorem punctToSpace_noop (l : List Char)
    (h : ∀ c ∈ l, isWordChar c ∨ isSpaceChar c ∨ c = apos) :
    punctToSpace l = l := by
  unfold punctToSpace
  induction l with
  | nil => rfl
  | cons x xs ih =>
    simp only [List.map_cons]
    rw [if_pos (h x (by simp)), ih fun c hc => h c (by simp [hc])]

theorem removeDelims_noop (o c : Char) (l : List Char)
    (h : ∀ x ∈ l, ¬ x = o) : removeDelims o c l = l := by
  unfold removeDelims
  induction l with
  | nil => rfl
  | cons x xs ih =>
    rw [removeDelimsAux]
    simp only [Bool.false_eq_true, if_false]
    rw [if_neg (by simp [h x (by simp)])]
    rw [ih fun y hy => h y (by simp [hy])]

theorem ryta_skip (d1 d2 d3 d4 : Char) (hd1 : d1.isDigit = true)
    (prevW : Bool) (x : Char) (hx : x.isDigit = false) (rest : List Char) :
    removeYearTokenAux [d1, d2, d3, d4] prevW (x :: rest)
      = x :: removeYearTokenAux [d1, d2, d3, d4] (isWordChar x) rest := by
  have hne : ∀ (b c e : Char), ¬ ([x, b, c, e] = [d1, d2, d3, d4]) := by
    intro b c e hh
    have hx1 : x = d1 := by injection hh
    rw [hx1, hd1] at hx
    cases hx
  rcases rest with _ | ⟨b, _ | ⟨c, _ | ⟨e, rrest⟩⟩⟩ <;>
    simp [removeYearTokenAux, hne]

theorem removeYearToken_mid (d1 d2 d3 d4 : Char)
    (hd : d1.isDigit = true) (t : List Char)
    (ht : ∀ c ∈ t, c.isDigit = false) (prevW : Bool) :
    removeYearTokenAux [d1, d2, d3, d4] prevW
        (t ++ (' ' :: '(' :: d1 :: d2 :: d3 :: d4 :: [')']))
      = t ++ [' ', '(', ' ', ')'] := by
  induction t generalizing prevW with
  | nil =>
    rw [List.nil_append]
    rw [ryta_skip d1 d2 d3 d4 hd prevW ' ' (by decide)]
    rw [ryta_skip d1 d2 d3 d4 hd _ '(' (by decide)]
    rw [show removeYearTokenAux [d1, d2, d3, d4] (isWordChar '(')
          (d1 :: d2 :: d3 :: d4 :: [')'])
        = ' ' :: removeYearTokenAux [d1, d2, d3, d4] true [')'] by
      simp [removeYearTokenAux, isWordChar, boundaryAfterOk]]
    simp [removeYearTokenAux]
  | cons x xs ih =>
    rw [List.cons_append]
    rw [ryta_skip d1 d2 d3 d4 hd prevW x (ht x (by simp))]
    rw [ih (fun c hc => ht c (by simp [hc])) _]
    simp

theorem fby_skip (prevW : Bool) (x : Char) (hx : x.isDigit = false)
    (rest : List Char) :
    findBareYears prevW (x :: rest) = findBareYears (isWordChar x) rest := by
  have h1 : ¬ x = '1' := fun h => by rw [h] at hx; cases hx
  have h2 : ¬ x = '2' := fun h => by rw [h] at hx; cases hx
  have hne : ∀ (b c e : Char), isBareYearShape x b c e = false := by
    intro b c e
    simp [isBareYearShape, h1, h2]
  rcases rest with _ | ⟨b, _ | ⟨c, _ | ⟨e, rrest⟩⟩⟩ <;>
    simp [findBareYears, hne]

theorem fby_year_head (d1 d2 d3 d4 : Char)
    (hsh : isBareYearShape d1 d2 d3 d4 = true) (rest : List Char)
    (hb : boundaryAfterOk rest = true) :
    findBareYears false (d1 :: d2 :: d3 :: d4 :: rest)
      = [d1, d2, d3, d4] :: findBareYears true rest := by
  simp [findBareYears, hsh, hb]

theorem fby_two_years (d1 d2 d3 d4 e1 e2 e3 e4 : Char)
    (hs1 : isBareYearShape d1 d2 d3 d4 = true)
    (hs2 : isBareYearShape e1 e2 e3 e4 = true)
    (t : List Char) (ht : ∀ c ∈ t, c.isDigit = false) :
    findBareYears false
        (d1 :: d2 :: d3 :: d4 :: ' ' :: (t ++ ' ' :: [e1, e2, e3, e4]))
      = [[d1, d2, d3, d4], [e1, e2, e3, e4]] := by
  rw [fby_year_head d1 d2 d3 d4 hs1 _ (by simp [boundaryAfterOk, isWordChar])]
  rw [fby_skip true ' ' (by decide)]
  have htail : ∀ (w : Bool), findBareYears w (t ++ ' ' :: [e1, e2, e3, e4])
      = [[e1, e2, e3, e4]] := by
    intro w
    induction t generalizing w with
    | nil =>
      rw [List.nil_append]
      rw [fby_skip w ' ' (by decide)]
      rw [show isWordChar ' ' = false from rfl]
      rw [fby_year_head e1 e2 e3 e4 hs2 [] (by decide)]
      simp [findBareYears]
    | cons x xs ih =>
      rw [List.cons_append]
      rw [fby_skip w x (ht x (by simp))]
      exact ih (fun c hc => ht c (by simp [hc])) _
  rw [show isWordChar ' ' = false from rfl]
  rw [htail false]

theorem extractYear_paren (a b : List Char) (v : Nat)
    (ha : ∀ c ∈ a, ¬ c = '(') (h1 : 1900 ≤ v) (h2 : v ≤ 2099) :
    extractYearChars (a ++ '(' :: (yearChars v ++ ')' :: b))
      = some (yearChars v) := by
  have hfp : findParenYear (a ++ '(' :: (yearChars v ++ ')' :: b))
      = some (yearChars v) := by
    have hd := yearChars_all_digits v
    simp only [yearChars] at hd ⊢
    exact findParenYear_append a _ _ _ _ b ha
      ⟨hd _ (by simp), hd _ (by simp), hd _ (by simp), hd _ (by simp)⟩
  unfold extractYearChars
  rw [hfp]
  simp [charsToNat_yearChars v (by omega : v ≤ 9999), h1, h2]

theorem extractYear_last_bare (v1 v2 : Nat) (t : List Char)
    (h11 : 1900 ≤ v1) (h12 : v1 ≤ 2099) (h21 : 1900 ≤ v2) (h22 : v2 ≤ 2099)
    (ht : ∀ c ∈ t, c.isDigit = false ∧ ¬ c = '(') :
    extractYearChars (yearChars v1 ++ ' ' :: (t ++ ' ' :: yearChars v2))
      = some (yearChars v2) := by
  have hnp : findParenYear (yearChars v1 ++ ' ' :: (t ++ ' ' :: yearChars v2))
      = none := by
    apply findParenYear_none
    intro c hc
    have hdig : ∀ x ∈ yearChars v1 ++ yearChars v2, ¬ x = '(' := by
      intro x hx h
      have := yearChars_all_digits
      rcases List.mem_append.mp hx with hx | hx
      · have := yearChars_all_digits v1 x hx
        rw [h] at this
        cases this
      · have := yearChars_all_digits v2 x hx
        rw [h] at this
        cases this
    rcases List.mem_append.mp hc with hc | hc
    · exact hdig c (List.mem_append.mpr (Or.inl hc))
    · rcases List.mem_cons.mp hc with rfl | hc
      · decide
      · rcases List.mem_append.mp hc with hc | hc
        · exact (ht c hc).2
        · rcases List.mem_cons.mp hc with rfl | hc
          · decide
          · exact hdig c (List.mem_append.mpr (Or.inr hc))
  have hfb : findBareYears false
      (yearChars v1 ++ ' ' :: (t ++ ' ' :: yearChars v2))
      = [yearChars v1, yearChars v2] := by
    have hs1 := yearChars_shape v1 h11 h12
    have hs2 := yearChars_shape v2 h21 h22
    simp only [yearChars] at hs1 hs2 ⊢
    exact fby_two_years _ _ _ _ _ _ _ _ hs1 hs2 t fun c hc => (ht c hc).1
  unfold extractYearChars
  rw [hnp]
  unfold lastBareYear
  rw [hfb]
  rfl

theorem char_eq_of (c d : Char) (p : Char → Bool) (hc : p c = true)
    (hd : p d = false) : ¬ c = d := by
  intro h
  rw [h, hd] at hc
  cases hc

theorem niceChar_props (c : Char) (h : isNiceChar c = true) :
    c.isDigit = false ∧ ¬ c = '.' ∧ ¬ c = '/' ∧ ¬ c = '(' ∧ ¬ c = ')' ∧
    ¬ c = '[' ∧ ¬ c = Char.ofNat 123 ∧ ¬ c = '_' ∧ ¬ c = '-' ∧
    (isWordChar c ∨ isSpaceChar c ∨ c = apos) := by
  simp only [isNiceChar, Bool.or_eq_true] at h
  rcases h with (ha | hsp) | hap
  · have hd : c.isDigit = false := by
      cases hdig : c.isDigit
      · rfl
      · exfalso
        simp only [Char.isAlpha, Char.isUpper, Char.isLower,
          Bool.or_eq_true, Bool.and_eq_true, decide_eq_true_eq] at ha
        simp only [Char.isDigit, Bool.and_eq_true, decide_eq_true_eq] at hdig
        have h9 : c.toNat ≤ 57 := hdig.2
        rcases ha with ⟨ha1, _⟩ | ⟨ha1, _⟩
        · have hA : 65 ≤ c.toNat := ha1
          omega
        · have hA : 97 ≤ c.toNat := ha1
          omega
    refine ⟨hd, ?_, ?_, ?_, ?_, ?_, ?_, ?_, ?_, ?_⟩
    · exact char_eq_of c _ Char.isAlpha ha (by decide)
    · exact char_eq_of c _ Char.isAlpha ha (by decide)
    · exact char_eq_of c _ Char.isAlpha ha (by decide)
    · exact char_eq_of c _ Char.isAlpha ha (by decide)
    · exact char_eq_of c _ Char.isAlpha ha (by decide)
    · exact char_eq_of c _ Char.isAlpha ha (by decide)
    · exact char_eq_of c _ Char.isAlpha ha (by decide)
    · exact char_eq_of c _ Char.isAlpha ha (by decide)
    · exact Or.inl (by simp [isWordChar, Char.isAlphanum, ha])
  · rw [show c = ' ' by simpa using hsp]
    decide
  · rw [show c = apos by simpa using hap]
    decide

theorem outChar_props (c : Char) (h : isOutChar c = true) :
    ¬ c = '.' ∧ ¬ c = '/' ∧ ¬ c = '(' ∧ ¬ c = '[' ∧
    ¬ c = Char.ofNat 123 ∧ ¬ c = '_' ∧ ¬ c = '-' ∧
    (isWordChar c ∨ isSpaceChar c ∨ c = apos) := by
  simp only [isOutChar, Bool.or_eq_true] at h
  rcases h with (han | hsp) | hap
  · refine ⟨?_, ?_, ?_, ?_, ?_, ?_, ?_, ?_⟩
    · exact char_eq_of c _ Char.isAlphanum han (by decide)
    · exact char_eq_of c _ Char.isAlphanum han (by decide)
    · exact char_eq_of c _ Char.isAlphanum han (by decide)
    · exact char_eq_of c _ Char.isAlphanum han (by decide)
    · exact char_eq_of c _ Char.isAlphanum han (by decide)
    · exact char_eq_of c _ Char.isAlphanum han (by decide)
    · exact char_eq_of c _ Char.isAlphanum han (by decide)
    · exact Or.inl (by simp [isWordChar, han])
  · rw [show c = ' ' by simpa using hsp]
    decide
  · rw [show c = apos by simpa using hap]
    decide

theorem removeDelims_paren (t : List Char) (h : ∀ x ∈ t, ¬ x = '(') :
    removeDelims '(' ')' (t ++ [' ', '(', ' ', ')'])
      = t ++ [' ', ' '] := by
  unfold removeDelims
  induction t with
  | nil => decide
  | cons x xs ih =>
    rw [List.cons_append]
    rw [removeDelimsAux]
    simp only [Bool.false_eq_true, if_false]
    rw [if_neg (by simp [h x (by simp)])]
    rw [ih fun y hy => h y (by simp [hy])]
    simp

/-- Claim C4 (counterexample): on "2001 A Space Odyssey.mkv" — a title
that merely starts with a number, with no other year token — the parser
does mistake the leading number for the year: it reports year 2001 and
strips it from the title. -/
theorem claimC4_counterexample :
    cleanMediaChars "2001 A Space Odyssey.mkv".data
      = ("A Space Odyssey".data, some 2001) := by
  decide

/-- Claim C4 (amended): year extraction prefers the first parenthesized
4-digit group when it lies in 1900–2099 (regardless of bare tokens before
or after); with no parenthesized group it returns the last plausible bare
year — so a leading title number is protected only when a later year
token exists, and in "2001 A Space Odyssey" the leading 2001 itself is
reported as the year. -/
theorem claimC4_year_extraction_rules (a b t : List Char) (v v1 v2 : Nat)
    (ha : ∀ c ∈ a, ¬ c = '(') (hv1 : 1900 ≤ v) (hv2 : v ≤ 2099)
    (h11 : 1900 ≤ v1) (h12 : v1 ≤ 2099) (h21 : 1900 ≤ v2) (h22 : v2 ≤ 2099)
    (ht : ∀ c ∈ t, c.isDigit = false ∧ ¬ c = '(') :
    extractYearChars (a ++ '(' :: (yearChars v ++ ')' :: b))
      = some (yearChars v) ∧
    extractYearChars (yearChars v1 ++ ' ' :: (t ++ ' ' :: yearChars v2))
      = some (yearChars v2) ∧
    extractYearChars "2001 A Space Odyssey".data
      = some ['2', '0', '0', '1'] :=
  ⟨extractYear_paren a b v ha hv1 hv2,
   extractYear_last_bare v1 v2 t h11 h12 h21 h22 ht,
   by decide⟩

/-- Witness for the amended C4: a parenthesized 1999 beats a trailing
bare 2010, and a trailing bare 1968 beats the leading 2001. -/
theorem claimC4_witness :
    extractYearChars ("Movie ".data
        ++ '(' :: (yearChars 1999 ++ ')' :: " 2010".data))
      = some (yearChars 1999) ∧
    extractYearChars (yearChars 2001
        ++ ' ' :: ("A Space Odyssey".data ++ ' ' :: yearChars 1968))
      = some (yearChars 1968) ∧
    extractYearChars "2001 A Space Odyssey".data
      = some ['2', '0', '0', '1'] := by
  have H := claimC4_year_extraction_rules "Movie ".data " 2010".data
    "A Space Odyssey".data 1999 2001 1968 (by decide) (by decide)
    (by decide) (by decide) (by decide) (by decide) (by decide) (by decide)
  exact H

/-- Claim C5 (counterexample): the parser is not idempotent on its own
output — "2001 A Space Odyssey (1968).mkv" cleans to the title
"2001 a Space Odyssey" (the parenthesized year was preferred, so the
leading 2001 stays), but re-running the parser on that title strips the
2001 as a bare year and yields "A Space Odyssey". -/
theorem claimC5_counterexample :
    ¬ (cleanMediaChars
        ((cleanMediaChars "2001 A Space Odyssey (1968).mkv".data).1)).1
      = (cleanMediaChars "2001 A Space Odyssey (1968).mkv".data).1 := by
  decide

/-- Claim C5 (amended): the parser is idempotent on titles that are
already fully clean: only letters, digits, spaces and apostrophes
(as every output title is), no bare year token, and no junk keyword —
re-parsing such a title returns it unchanged with no year.  An output
title can still contain a bare year token (when a parenthesized year was
preferred on the first run) or a junk keyword newly exposed by
punctuation removal; those are the titles the second run changes. -/
theorem claimC5_idempotent_on_clean (t : List Char)
    (h1 : t.all isOutChar = true)
    (h2 : findBareYears false t = [])
    (h3 : applyPatterns t = t)
    (h4 : collapseSpaces t = t)
    (h5 : stripChars t = t)
    (h6 : smartTitleCase t = t) :
    cleanMediaChars t = (t, none) := by
  have hall : ∀ c ∈ t, isOutChar c = true := fun c hc =>
    List.all_eq_true.mp h1 c hc
  have hsplit : splitextChars t = (t, []) :=
    splitext_no_dot t fun c hc => (outChar_props c (hall c hc)).1
  have hyear : extractYearChars t = none := by
    unfold extractYearChars
    rw [findParenYear_none t fun c hc => (outChar_props c (hall c hc)).2.2.1]
    unfold lastBareYear
    rw [h2]
    rfl
  have hsep : sepToSpace t = t := by
    apply sepToSpace_noop
    intro c hc
    obtain ⟨p1, _, _, _, _, p6, p7, _⟩ := outChar_props c (hall c hc)
    rintro (h | h | h)
    · exact p1 h
    · exact p6 h
    · exact p7 h
  have hd1 : removeDelims '[' ']' t = t :=
    removeDelims_noop _ _ t fun x hx => (outChar_props x (hall x hx)).2.2.2.1
  have hd2 : removeDelims (Char.ofNat 123) (Char.ofNat 125) t = t :=
    removeDelims_noop _ _ t fun x hx =>
      (outChar_props x (hall x hx)).2.2.2.2.1
  have hd3 : removeDelims '(' ')' t = t :=
    removeDelims_noop _ _ t fun x hx => (outChar_props x (hall x hx)).2.2.1
  have hpunct : punctToSpace t = t :=
    punctToSpace_noop t fun c hc =>
      (outChar_props c (hall c hc)).2.2.2.2.2.2.2
  simp only [cleanMediaChars, hsplit]
  rw [show (if lowerChars ((t, ([] : List Char))).2 ∈ mediaExts
      then ((t, ([] : List Char))).1 else t) = t by simp]
  simp only [hyear, hsep, hd1, hd2, hd3, h3, hpunct, h4, h5, h6,
    Option.map_none']

/-- Witness for the amended C5: re-parsing the clean output title
"A Space Odyssey" returns it unchanged. -/
theorem claimC5_witness :
    cleanMediaChars "A Space Odyssey".data = ("A Space Odyssey".data, none)
    := by
  have H := claimC5_idempotent_on_clean "A Space Odyssey".data
    (by decide) (by decide) (by decide) (by decide) (by decide) (by decide)
  exact H

/-- Claim C3 (counterexample): "{Title} ({Year}).ext" is not parsed back
to (Title, Year) for every title — smart title-casing lowers the "A" of
"2001 A Space Odyssey", so the returned title differs. -/
theorem claimC3_counterexample :
    ¬ clean_media_filename "2001 A Space Odyssey (1968).mkv"
      = ("2001 A Space Odyssey", some 1968) := by
  decide

/-- Claim C3 (amended): for every already-clean title — letters, spaces
and apostrophes only, untouched by the junk-keyword pass (even with the
two residual spaces year removal leaves), already space-collapsed,
stripped, and smart-title-cased — and every year in 1900–2099, parsing
"{Title} ({Year}).mkv" returns exactly (Title, Year). -/
theorem claimC3_parse_clean_title (t : List Char) (y : Nat)
    (hy1 : 1900 ≤ y) (hy2 : y ≤ 2099)
    (h1 : t.all isNiceChar = true)
    (h2 : applyPatterns (t ++ [' ', ' ']) = t ++ [' ', ' '])
    (h3 : collapseSpaces (t ++ [' ', ' ']) = t)
    (h4 : stripChars t = t)
    (h5 : smartTitleCase t = t) :
    cleanMediaChars
        ((t ++ (' ' :: '(' :: (yearChars y ++ [')']))) ++ ".mkv".data)
      = (t, some y) := by
  have hall : ∀ c ∈ t, isNiceChar c = true := fun c hc =>
    List.all_eq_true.mp h1 c hc
  have hyd : ∀ c ∈ yearChars y, c.isDigit = true := yearChars_all_digits y
  have hbase : ∀ c ∈ t ++ (' ' :: '(' :: (yearChars y ++ [')'])),
      ¬ c = '.' ∧ ¬ c = '/' := by
    intro c hc
    rcases List.mem_append.mp hc with hc | hc
    · obtain ⟨_, p2, p3, _⟩ := niceChar_props c (hall c hc)
      exact ⟨p2, p3⟩
    · rcases List.mem_cons.mp hc with rfl | hc
      · exact ⟨by decide, by decide⟩
      · rcases List.mem_cons.mp hc with rfl | hc
        · exact ⟨by decide, by decide⟩
        · rcases List.mem_append.mp hc with hc | hc
          · exact ⟨char_eq_of c _ Char.isDigit (hyd c hc) (by decide),
              char_eq_of c _ Char.isDigit (hyd c hc) (by decide)⟩
          · rcases List.mem_cons.mp hc with rfl | hc
            · exact ⟨by decide, by decide⟩
            · cases hc
  have e0 : splitextChars
      ((t ++ (' ' :: '(' :: (yearChars y ++ [')']))) ++ ".mkv".data)
      = (t ++ (' ' :: '(' :: (yearChars y ++ [')'])), ".mkv".data) :=
    splitext_append_ext _ (by simp) hbase
  have e1 : extractYearChars (t ++ (' ' :: '(' :: (yearChars y ++ [')'])))
      = some (yearChars y) := by
    rw [show t ++ (' ' :: '(' :: (yearChars y ++ [')']))
        = (t ++ [' ']) ++ '(' :: (yearChars y ++ ')' :: []) by simp]
    apply extractYear_paren (t ++ [' ']) [] y _ hy1 hy2
    intro c hc
    rcases List.mem_append.mp hc with hc | hc
    · exact (niceChar_props c (hall c hc)).2.2.2.1
    · rcases List.mem_cons.mp hc with rfl | hc
      · decide
      · cases hc
  have e2 : sepToSpace (t ++ (' ' :: '(' :: (yearChars y ++ [')'])))
      = t ++ (' ' :: '(' :: (yearChars y ++ [')'])) := by
    apply sepToSpace_noop
    intro c hc
    rcases List.mem_append.mp hc with hc | hc
    · obtain ⟨_, p2, _, _, _, _, _, p8, p9, _⟩ := niceChar_props c (hall c hc)
      rintro (h | h | h)
      · exact p2 h
      · exact p8 h
      · exact p9 h
    · rcases List.mem_cons.mp hc with rfl | hc
      · rintro (h | h | h) <;> cases h
      · rcases List.mem_cons.mp hc with rfl | hc
        · rintro (h | h | h) <;> cases h
        · rcases List.mem_append.mp hc with hc | hc
          · have hd := hyd c hc
            rintro (h | h | h) <;>
              exact char_eq_of c _ Char.isDigit hd (by decide) h
          · rcases List.mem_cons.mp hc with rfl | hc
            · rintro (h | h | h) <;> cases h
            · cases hc
  have e3 : removeYearToken (yearChars y)
      (t ++ (' ' :: '(' :: (yearChars y ++ [')'])))
      = t ++ [' ', '(', ' ', ')'] := by
    have hnd : ∀ c ∈ t, c.isDigit = false :=
      fun c hc => (niceChar_props c (hall c hc)).1
    have hd1 : (digitChar (y / 1000 % 10)).isDigit = true :=
      digitChar_isDigit _ (Nat.mod_lt _ (by omega))
    unfold removeYearToken
    simp only [yearChars]
    exact removeYearToken_mid _ _ _ _ hd1 t hnd false
  have e4 : removeDelims '[' ']' (t ++ [' ', '(', ' ', ')'])
      = t ++ [' ', '(', ' ', ')'] := by
    apply removeDelims_noop
    intro x hx
    rcases List.mem_append.mp hx with hx | hx
    · exact (niceChar_props x (hall x hx)).2.2.2.2.2.1
    · simp only [List.mem_cons, List.not_mem_nil, or_false] at hx
      rcases hx with rfl | rfl | rfl | rfl <;> decide
  have e5 : removeDelims (Char.ofNat 123) (Char.ofNat 125)
      (t ++ [' ', '(', ' ', ')']) = t ++ [' ', '(', ' ', ')'] := by
    apply removeDelims_noop
    intro x hx
    rcases List.mem_append.mp hx with hx | hx
    · exact (niceChar_props x (hall x hx)).2.2.2.2.2.2.1
    · simp only [List.mem_cons, List.not_mem_nil, or_false] at hx
      rcases hx with rfl | rfl | rfl | rfl <;> decide
  have e6 : removeDelims '(' ')' (t ++ [' ', '(', ' ', ')'])
      = t ++ [' ', ' '] := by
    apply removeDelims_paren
    intro x hx
    exact (niceChar_props x (hall x hx)).2.2.2.1
  have e7 : punctToSpace (t ++ [' ', ' ']) = t ++ [' ', ' '] := by
    apply punctToSpace_noop
    intro c hc
    rcases List.mem_append.mp hc with hc | hc
    · exact (niceChar_props c (hall c hc)).2.2.2.2.2.2.2.2.2
    · simp only [List.mem_cons, List.not_mem_nil, or_false] at hc
      rcases hc with rfl | rfl <;> exact Or.inr (Or.inl (by decide))
  have ey : charsToNat (yearChars y) = y := charsToNat_yearChars y (by omega)
  simp only [cleanMediaChars, e0]
  rw [if_pos (show lowerChars ".mkv".data ∈ mediaExts by decide)]
  simp only [e1, e2, e3, e4, e5, e6, h2, e7, h3, h4, h5, Option.map_some',
    ey]

/-- Witness for the amended C3 at "The Matrix (1999).mkv". -/
theorem claimC3_witness :
    cleanMediaChars
        (("The Matrix".data ++ (' ' :: '(' :: (yearChars 1999 ++ [')'])))
          ++ ".mkv".data)
      = ("The Matrix".data, some 1999) := by
  have H := claimC3_parse_clean_title "The Matrix".data 1999
    (by decide) (by decide) (by decide) (by decide) (by decide) (by decide)
    (by decide)
  exact H

theorem startsWithL_comparable (s : List Char) :
    ∀ (a b : List Char), startsWithL a s = true → startsWithL b s = true →
      startsWithL a b = true ∨ startsWithL b a = true := by
  induction s with
  | nil =>
    intro a b ha hb
    rcases a with _ | ⟨xa, as⟩
    · exact Or.inl rfl
    · simp [startsWithL] at ha
  | cons z zs ih =>
    intro a b ha hb
    rcases a with _ | ⟨xa, as⟩
    · exact Or.inl rfl
    rcases b with _ | ⟨xb, bs⟩
    · exact Or.inr rfl
    simp only [startsWithL, Bool.and_eq_true, decide_eq_true_eq] at ha hb
    rcases ih as bs ha.2 hb.2 with hor | hor
    · exact Or.inl (by simp [startsWithL, ha.1, hb.1, hor])
    · exact Or.inr (by simp [startsWithL, ha.1, hb.1, hor])

theorem mem_find_matching_subtitles (v : String) (pool : List String)
    (e : SubEntry) (he : e ∈ find_matching_subtitles v pool) :
    startsWithL (stemOf v) (basenameChars e.path.data) = true := by
  unfold find_matching_subtitles at he
  simp only [List.mem_map] at he
  obtain ⟨s, hs, rfl⟩ := he
  exact (List.mem_filter.mp hs).2

theorem group_stage_subtitles (probe : String → Option FileMeta)
    (src : String) (videos audios subs : List String)
    (it : MediaCandidate)
    (h : it ∈ MediaScanner._group_stage probe src videos audios subs) :
    it.subtitles = [] ∨
      ∃ pool, it.subtitles = find_matching_subtitles it.original_path pool
    := by
  unfold MediaScanner._group_stage at h
  rcases List.mem_append.mp h with h | h
  · simp only [List.mem_map] at h
    obtain ⟨d, _, rfl⟩ := h
    exact Or.inl rfl
  · simp only [List.mem_flatMap] at h
    obtain ⟨d, _, h⟩ := h
    by_cases htv : (((videos.filter fun f =>
          ¬ dirnameStr f ∈ firstSeen (audios.map dirnameStr)).filter
            fun f => dirnameStr f = d).any
          fun f => is_likely_tv_show (basenameStr f)) = true
    · rw [if_pos htv] at h
      unfold MediaScanner._process_tv_group at h
      simp only [List.mem_map] at h
      obtain ⟨f, _, rfl⟩ := h
      exact Or.inr ⟨_, rfl⟩
    · rw [if_neg htv] at h
      simp only [List.mem_map] at h
      obtain ⟨f, _, rfl⟩ := h
      exact Or.inr ⟨_, rfl⟩

/-- Claim C8 (counterexample): in one group-stage run over two videos
"Movie.mkv" and "Movie 2.mkv" with the single subtitle
"Movie 2.en.srt", both produced items claim that subtitle — the pool is
never consumed, so a subtitle is not claimed by at most one video. -/
theorem claimC8_counterexample :
    (exGroupItems.countP fun it =>
      it.subtitles.any fun e => e.path == "/d/Movie 2.en.srt") = 2 := by
  decide

/-- Claim C8 (amended): a subtitle can be attached to several items, but
only when their filename stems are prefix-comparable: whenever two items
produced by one group-stage run both claim a subtitle path, one item's
stem is a string prefix of the other's. -/
theorem claimC8_shared_subtitle_stems (probe : String → Option FileMeta)
    (src : String) (videos audios subs : List String)
    (it1 it2 : MediaCandidate) (e1 e2 : SubEntry)
    (h1 : it1 ∈ MediaScanner._group_stage probe src videos audios subs)
    (h2 : it2 ∈ MediaScanner._group_stage probe src videos audios subs)
    (he1 : e1 ∈ it1.subtitles) (he2 : e2 ∈ it2.subtitles)
    (hp : e1.path = e2.path) :
    startsWithL (stemOf it1.original_path) (stemOf it2.original_path) = true
    ∨ startsWithL (stemOf it2.original_path) (stemOf it1.original_path)
      = true := by
  rcases group_stage_subtitles probe src videos audios subs it1 h1 with
    hs1 | ⟨pool1, hs1⟩
  · rw [hs1] at he1
    cases he1
  rcases group_stage_subtitles probe src videos audios subs it2 h2 with
    hs2 | ⟨pool2, hs2⟩
  · rw [hs2] at he2
    cases he2
  rw [hs1] at he1
  rw [hs2] at he2
  have hw1 := mem_find_matching_subtitles _ _ _ he1
  have hw2 := mem_find_matching_subtitles _ _ _ he2
  rw [hp] at hw1
  exact startsWithL_comparable (basenameChars e2.path.data) _ _ hw1 hw2

/-- Witness for the amended C8 at the concrete shared-subtitle run. -/
theorem claimC8_witness :
    startsWithL (stemOf exItemA.original_path) (stemOf exItemB.original_path)
      = true
    ∨ startsWithL (stemOf exItemB.original_path)
        (stemOf exItemA.original_path) = true := by
  exact claimC8_shared_subtitle_stems (fun _ => none) "/d"
    ["/d/Movie.mkv", "/d/Movie 2.mkv"] [] ["/d/Movie 2.en.srt"]
    exItemA exItemB
    { path := "/d/Movie 2.en.srt", language := some "English" }
    { path := "/d/Movie 2.en.srt", language := some "English" }
    (by decide) (by decide) (by decide) (by decide) rfl

